import Mathlib

/-!
# Verification of the gflydev/db model-to-table reflection engine and fluent builder

This file gives a shallow embedding of the core of the `github.com/gflydev/db`
ORM layer — the struct reflector (`ModelData` / `processModel` in `model.go`),
the fluent `DBModel` builder (`fluentmodel.go`), and the terminal CRUD
operations (`create_builder.go`, `update_builder.go`, `delete_builder.go`,
`query_builder.go`, `func.go`) — and proves or refutes the specification's
claims about them.

Go runtime values that flow through the library's reflection code are embedded
as an inductive `GoVal`; Go's `reflect` predicates (`IsValid`, `IsZero`,
`CanInt`) become Boolean functions on `Option GoVal` (with `none` standing for
an invalid `reflect.Value`, i.e. Go `nil`).  The external collaborators — the
fluentsql query-builder dependency and the sqlx driver — are out of scope for
the spec; they are modelled as plain condition/clause accumulators
(`QueryBuilder`, `UpdateBuilder`, …) and a deterministic response oracle
(`DbEnv`), exactly mirroring what this repository pushes into them.
Every terminal operation additionally returns the list of statements it sent
to the driver, so "executes no SQL" is a statement about that trace.
-/

namespace Gdb

/-! ## Go values and reflection predicates -/

/-- Integer kinds of Go (`reflect.Kind` int/uint families). -/
inductive IntKind where
  | int | int8 | int16 | int32 | int64
  | uint | uint8 | uint16 | uint32 | uint64
  deriving DecidableEq, Repr

/-- Is the kind one of the signed integer kinds (`reflect.Value.CanInt`)? -/
def IntKind.signed : IntKind → Bool
  | .int | .int8 | .int16 | .int32 | .int64 => true
  | _ => false

/-- Bit width of an integer kind (platform `int`/`uint` are 64-bit here,
matching the repository's 64-bit build assumptions). -/
def IntKind.bits : IntKind → Nat
  | .int | .int64 | .uint | .uint64 => 64
  | .int8 | .uint8 => 8
  | .int16 | .uint16 => 16
  | .int32 | .uint32 => 32

/-- A Go runtime value as it appears in this library's reflection paths.
Floating-point payloads are represented by exact rationals: the library only
formats floats to 6 decimal places and re-parses decimal strings, and no claim
depends on binary rounding.  `vOther` stands for any other value (structs,
maps, ...) of which only zero-ness is observable to the reflector. -/
inductive GoVal where
  | vStr (s : String)
  | vBool (b : Bool)
  | vInt (k : IntKind) (n : Int)
  | vFloat64 (q : Rat)
  | vFloat32 (q : Rat)
  | vJsonNumber (s : String)
  | vBytes (s : String)
  | vOther (zero : Bool)
  deriving DecidableEq, Repr

/-- `reflect.Value.IsZero` on a valid value. (`[]byte` slice zero-ness would
compare against a nil slice; the library never consults it, so `false`.) -/
def GoVal.isZeroVal : GoVal → Bool
  | .vStr s => s = ""
  | .vBool b => !b
  | .vInt _ n => n = 0
  | .vFloat64 q => q = 0
  | .vFloat32 q => q = 0
  | .vJsonNumber s => s = ""
  | .vBytes _ => false
  | .vOther z => z

/-- `reflect.Value.CanInt`: true exactly for the signed integer kinds. -/
def GoVal.canIntVal : GoVal → Bool
  | .vInt k _ => k.signed
  | _ => false

/-- `valueField.IsValid()`: `none` models an invalid `reflect.Value`. -/
def isValidO (v : Option GoVal) : Bool := v.isSome

/-- `IsZero` lifted to possibly-invalid values (only consulted when valid). -/
def isZeroO : Option GoVal → Bool
  | none => true
  | some v => v.isZeroVal

/-- `CanInt` lifted to possibly-invalid values (`false` on invalid). -/
def canIntO : Option GoVal → Bool
  | none => false
  | some v => v.canIntVal

/-! ## Small string helpers used by the reflector (`model.go`)

All splitting/case functions are implemented by structural recursion on the
character list (every separator this library uses is a single character), so
that concrete claims evaluate inside the kernel. -/

/-- Split a character list on a separator character (`strings.Split`). -/
def splitCharsGo (sep : Char) : List Char → List Char → List (List Char)
  | [], acc => [acc.reverse]
  | c :: rest, acc =>
    if c = sep then acc.reverse :: splitCharsGo sep rest []
    else splitCharsGo sep rest (c :: acc)

/-- `strings.Split(s, sep)` for a one-character separator. -/
def splitOnChar (sep : Char) (s : String) : List String :=
  (splitCharsGo sep s.data []).map String.mk

/-- Join strings with a one-character separator (inverse of `splitOnChar`). -/
def joinWithChar (sep : Char) : List String → String
  | [] => ""
  | [x] => x
  | x :: rest => x ++ String.mk [sep] ++ joinWithChar sep rest

/-- `strings.ReplaceAll(s, " ", "")`. -/
def removeSpaces (s : String) : String :=
  String.mk (s.data.filter (fun c => !(c = ' ')))

/-- `strings.ToUpper` (character-wise). -/
def strToUpper (s : String) : String := String.mk (s.data.map Char.toUpper)

/-- `strings.HasPrefix` / the sign tests of `strconv` parsing. -/
def strStartsWith (s pre : String) : Bool := pre.data.isPrefixOf s.data

/-- Drop the first `n` characters. -/
def strDrop (s : String) (n : Nat) : String := String.mk (s.data.drop n)

/-- `strings.SplitN(s, sep, 2)` for a single-character separator: the part
before the first occurrence, and (when the separator occurs) the remainder. -/
def splitN2 (s : String) (sep : Char) : String × Option String :=
  match splitOnChar sep s with
  | [] => (s, none)
  | [x] => (x, none)
  | x :: rest => (x, some (joinWithChar sep rest))

/-- First regex pass of `toSnakeCase`: `(.)([A-Z][a-z]+)` ↦ `$1_$2`,
left-to-right, non-overlapping (scanning resumes after each match).  The
recursion is driven by a fuel bounded by the list length (each step strictly
shrinks the list, so the fuel never runs out). -/
def snakePass1Go : Nat → List Char → List Char
  | 0, l => l
  | _ + 1, [] => []
  | _ + 1, [c] => [c]
  | fuel + 1, c :: d :: rest =>
    if d.isUpper && (match rest with | e :: _ => e.isLower | [] => false) then
      let lowers := rest.takeWhile Char.isLower
      let rest' := rest.dropWhile Char.isLower
      c :: '_' :: d :: (lowers ++ snakePass1Go fuel rest')
    else
      c :: snakePass1Go fuel (d :: rest)

def snakePass1 (l : List Char) : List Char := snakePass1Go l.length l

/-- Second regex pass of `toSnakeCase`: `([a-z0-9])([A-Z])` ↦ `$1_$2`. -/
def snakePass2 : List Char → List Char
  | [] => []
  | [c] => [c]
  | a :: b :: rest =>
    if (a.isLower || a.isDigit) && b.isUpper then a :: '_' :: snakePass2 (b :: rest)
    else a :: snakePass2 (b :: rest)

/-- `toSnakeCase`: the two regex replacement passes followed by lowercasing. -/
def toSnakeCase (s : String) : String :=
  String.mk ((snakePass2 (snakePass1 s.data)).map Char.toLower)

/-! ## Tag parsing (`readTags`, `getTypes`, `isPrimary`, `isSerial`,
`getReferences`, `getCascade` from `model.go`) -/

/-- Go-map insertion into an association list (later writes overwrite). -/
def mapSet {α : Type} : List (String × α) → String → α → List (String × α)
  | [], k, v => [(k, v)]
  | (k', v') :: rest, k, v =>
    if k' = k then (k, v) :: rest else (k', v') :: mapSet rest k v

/-- Go-map lookup in an association list (`none` when the key is absent). -/
def mapGet {α : Type} : List (String × α) → String → Option α
  | [], _ => none
  | (k', v') :: rest, k => if k' = k then some v' else mapGet rest k

/-- Tag attribute keys (constants `MODEL`, `TABLE`, ... in `model.go`). -/
def tagTABLE : String := "table"
def tagTYPE : String := "type"
def tagREFERENCE : String := "ref"
def tagCASCADE : String := "cascade"
def tagRELATION : String := "rel"
def tagNAME : String := "name"

/-- `readTags`: parse a `model` tag into an attribute map.  An attribute with
no `:` separator makes Go index `pre[1]` out of range — a panic, `none` here. -/
def readTags (tags : String) : Option (List (String × List String)) :=
  if tags = "" then some [(tagTYPE, ["BOOLEAN"])]
  else
    let tags1 := removeSpaces tags
    let attributes := splitOnChar ';' tags1
    attributes.foldlM
      (fun m a =>
        match splitN2 a ':' with
        | (k, some rest) => some (mapSet m k (splitOnChar ',' rest))
        | (_, none) => none)
      []

/-- `attr[KEY]` read with Go's missing-key default (the nil slice). -/
def attrGet (attr : List (String × List String)) (k : String) : List String :=
  (mapGet attr k).getD []

/-- `getTypes`: format type tokens, rendering `primary` as `PRIMARY KEY`. -/
def getTypes (slice : List String) : String :=
  slice.foldl
    (fun out tok =>
      out ++ (if tok = "primary" then "PRIMARY KEY" else strToUpper tok) ++ " ")
    ""

/-- `isPrimary`: does the `type` attribute contain the token `primary`? -/
def isPrimaryTok (slice : List String) : Bool := slice.contains "primary"

/-- `isSerial`: does the `type` attribute contain the token `serial`? -/
def isSerialTok (slice : List String) : Bool := slice.contains "serial"

/-- `getReferences`: `REFERENCES table (col)` clause; indexing `[1]` of
`SplitN(colName, "_", 2)` panics (`none`) when the column has no underscore. -/
def getReferences (item colName : String) : Option String :=
  let tName := toSnakeCase item
  match splitN2 colName '_' with
  | (_, some rest) => some ("REFERENCES " ++ tName ++ " (" ++ rest ++ ") ")
  | (_, none) => none

/-- `getCascade`: cascade rules from the `cascade` attribute tokens. -/
def getCascade (slice : List String) : String :=
  slice.foldl
    (fun out tok =>
      out ++ (if tok = "delete" then "ON DELETE CASCADE " else "ON UPDATE CASCADE "))
    ""

/-! ## Table and Column descriptors (`model.go`) -/

/-- `Column`: field-to-column binding produced by the reflector. -/
structure Column where
  key : String
  name : String
  serial : Bool
  primary : Bool
  types : String
  ref : String
  relation : String
  isZero : Bool
  hasValue : Bool
  deriving DecidableEq, Repr

instance : Inhabited Column :=
  ⟨{ key := "", name := "", serial := false, primary := false, types := "",
     ref := "", relation := "", isZero := false, hasValue := false }⟩

/-- `Column.isNotData`: the column lacks a usable value or carries a
relation/reference marker. -/
def Column.isNotData (c : Column) : Bool :=
  !c.hasValue || c.relation ≠ "" || c.ref ≠ ""

/-- `Table`: the reflected table descriptor.  `values` is the Go
`map[string]any` (an entry holding `none` is a stored Go `nil`).  The
recursive `Relation []*Table` list is not modelled: it is built by ignored-
error recursive calls and never read by any CRUD path or claim. -/
structure Table where
  name : String
  primarySerial : Option Column
  primaries : List Column
  columns : List Column
  values : List (String × Option GoVal)
  hasData : Bool
  deriving DecidableEq, Repr

/-- `NewTable`: a fresh descriptor with an empty values map. -/
def NewTable : Table :=
  { name := "", primarySerial := none, primaries := [], columns := [],
    values := [], hasData := false }

/-- `table.Values[name]` — a missing key reads as the zero value `nil`. -/
def Table.value (tbl : Table) (name : String) : Option GoVal :=
  (mapGet tbl.values name).getD none

/-! ## Struct models -/

/-- One struct field as the reflector sees it: Go field name, raw `model`
tag, whether the field's type is the `db.MetaData` marker, whether its type
kind is a slice (relation handling), and its runtime value (`none` for an
invalid `reflect.Value`). -/
structure GoField where
  fname : String
  tag : String
  isMetaData : Bool
  isSliceType : Bool
  value : Option GoVal
  deriving DecidableEq, Repr

/-- A struct type together with a value for each field. -/
structure GoStruct where
  typeName : String
  fields : List GoField
  deriving DecidableEq, Repr

/-- A Go value handed to the builder's terminal operations, classified the
way the library's `reflect.TypeOf(model).Kind()` dispatches classify it. -/
inductive GoModel where
  | struct (s : GoStruct)
  | ptr (s : GoStruct)
  | nilPtr
  | mapVal (entries : List (String × GoVal))
  | slice (items : List GoModel)
  | otherVal

/-! ## `processModel` and `ModelData` -/

/-- The column name: an explicit `name:` attribute, else snake-cased field. -/
def fieldColName (attr : List (String × List String)) (f : GoField) : String :=
  match mapGet attr tagNAME with
  | some (n :: _) => n
  | _ => toSnakeCase f.fname

/-- The `ref` clause for a column; `none` is Go's index-out-of-range panic
when the column name has no underscore (an empty stored list is unreachable:
`readTags` never stores one). -/
def fieldRefStr (attr : List (String × List String)) (colName : String) :
    Option String :=
  match mapGet attr tagREFERENCE with
  | some (s0 :: _) => getReferences s0 colName
  | some [] => some ""
  | none => some ""

/-- The non-meta body of `processModel`'s loop once the `ref` clause is in
hand: value recording, column construction, primaries bookkeeping. -/
def processFieldCore (tbl : Table) (f : GoField)
    (attr : List (String × List String)) (refStr : String) : Table :=
  let isPrimaryColumn := isPrimaryTok (attrGet attr tagTYPE)
  let isSerialColumn := isSerialTok (attrGet attr tagTYPE)
  let colName := fieldColName attr f
  let validValue := isValidO f.value
  let validValueType :=
    (isSerialColumn && canIntO f.value && !isZeroO f.value) || !isSerialColumn
  let carries := validValue && validValueType
  let vals :=
    if carries then mapSet tbl.values colName f.value
    else mapSet tbl.values colName none
  let hasData := if carries then true else tbl.hasData
  let types :=
    match mapGet attr tagTYPE with
    | some slice => getTypes slice
    | none => ""
  let refFull :=
    refStr ++
      (match mapGet attr tagCASCADE with
       | some slice => getCascade slice
       | none => "")
  let relation :=
    match mapGet attr tagRELATION with
    | some (r0 :: _) => if validValue then toSnakeCase r0 else ""
    | _ => ""
  let col : Column :=
    { key := f.fname, name := colName, serial := isSerialColumn,
      primary := isPrimaryColumn, types := types, ref := refFull,
      relation := relation,
      isZero := if carries then isZeroO f.value else true,
      hasValue := carries }
  { tbl with
    values := vals,
    hasData := hasData,
    columns := tbl.columns ++ [col],
    primaries := if isPrimaryColumn then tbl.primaries ++ [col] else tbl.primaries,
    primarySerial :=
      if isSerialColumn && isPrimaryColumn then some col else tbl.primarySerial }

/-- One iteration of `processModel`'s field loop.  `none` models a Go panic
(a malformed tag without `:`, or a `ref` on an underscore-free column). -/
def processField (tbl : Table) (f : GoField) : Option Table :=
  match readTags f.tag with
  | none => none
  | some attr =>
    if f.isMetaData then
      match mapGet attr tagTABLE with
      | some (t :: _) => some { tbl with name := t }
      | _ => some tbl
    else
      match fieldRefStr attr (fieldColName attr f) with
      | none => none
      | some refStr => some (processFieldCore tbl f attr refStr)

/-- `processModel`'s loop over the struct's fields. -/
def processFields : Table → List GoField → Option Table
  | tbl, [] => some tbl
  | tbl, f :: rest =>
    match processField tbl f with
    | none => none
    | some t1 => processFields t1 rest

/-- Errors raised by the library (its `errors.New` messages). -/
inductive DbError where
  | invalidModel (msg : String)
  | missingWhere (msg : String)
  | missingModel (msg : String)
  | unknownType (msg : String)
  | driver (code : Nat)
  deriving DecidableEq, Repr

/-- Outcome of a library call: a returned value, a returned error, a Go
panic escaping the call, or a `log.Fatal` process exit. -/
inductive Outcome (α : Type) where
  | ok (a : α)
  | err (e : DbError)
  | panicked
  | fatal
  deriving DecidableEq, Repr

/-- `ModelData`: convert a model value into a `Table`.  A pointer type has an
empty `reflect` type name, so a `ptr` model starts from the empty table name
(overridable only by a `table:` tag); a nil pointer makes `processModel`
call `NumField` on an invalid value — a panic. -/
def mdInitTable (typeName : String) : Table :=
  { NewTable with name := toSnakeCase typeName }

def ModelData (m : GoModel) : Outcome Table :=
  match m with
  | .struct s =>
    match processFields (mdInitTable s.typeName) s.fields with
    | some t => .ok t
    | none => .panicked
  | .ptr s =>
    match processFields (mdInitTable "") s.fields with
    | some t => .ok t
    | none => .panicked
  | .nilPtr => .panicked
  | _ => .err (.invalidModel "Input param should be a struct")

/-! ## Conditions and clause builders

The fluentsql SQL-generation dependency is an external collaborator (spec §1,
§6).  Its condition value and builder types are modelled from the spec's
description of that interface — data holders that accept conditions, joins,
group-by, having, order-by and limit/fetch clauses — recording exactly what
this repository pushes into them. -/

/-- `fluentsql.WhereOpt` (re-exported by `constants.go`). -/
inductive WhereOpt where
  | Eq | NotEq | Diff | Greater | Lesser | GrEq | LeEq | Like | NotLike
  | In | NotIn | Between | NotBetween | Null | NotNull | Exists | NotExists
  | EqAny | NotEqAny | DiffAny | GreaterAny | LesserAny | GrEqAny | LeEqAny
  | EqAll | NotEqAll | DiffAll | GreaterAll | LesserAll | GrEqAll | LeEqAll
  deriving DecidableEq, Repr

/-- `fluentsql.WhereAndOr` (re-exported as `And` / `Or`). -/
inductive AndOr where
  | and | or
  deriving DecidableEq, Repr

/-- `fluentsql.Condition`: a leaf comparison or a parenthesized group. -/
inductive Condition where
  | mk (field : String) (opt : WhereOpt) (value : Option GoVal) (andOr : AndOr)
      (group : List Condition)

def Condition.field : Condition → String
  | .mk f _ _ _ _ => f

def Condition.opt : Condition → WhereOpt
  | .mk _ o _ _ _ => o

def Condition.value : Condition → Option GoVal
  | .mk _ _ v _ _ => v

def Condition.andOr : Condition → AndOr
  | .mk _ _ _ a _ => a

def Condition.group : Condition → List Condition
  | .mk _ _ _ _ g => g

/-- A leaf condition (`Group` left at its zero value, the empty list). -/
def leafCond (field : String) (opt : WhereOpt) (value : Option GoVal)
    (andOr : AndOr) : Condition :=
  .mk field opt value andOr []

/-- A group condition (other fields at their Go zero values). -/
def groupCond (gs : List Condition) : Condition :=
  .mk "" .Eq none .and gs

/-- `fluentsql.JoinItem`. -/
structure JoinItem where
  join : String
  table : String
  condition : Condition

/-- `fluentsql.Limit` clause value. -/
structure LimitCl where
  limit : Int
  offset : Int
  deriving DecidableEq, Repr

/-- `fluentsql.Fetch` clause value. -/
structure FetchCl where
  offset : Int
  fetch : Int
  deriving DecidableEq, Repr

/-- `fluentsql.OrderByDir`. Go zero value is `Asc`. -/
inductive OrderByDir where
  | Asc | Desc
  deriving DecidableEq, Repr

/-- The SELECT query builder: accumulates the clauses this repository sends
into `fluentsql.QueryBuilder`. -/
structure QueryBuilder where
  selectCols : List String
  fromTable : String
  whereConds : List Condition
  joins : List JoinItem
  groupBys : List String
  havings : List Condition
  orderBys : List (String × OrderByDir)
  limitStatement : LimitCl
  fetchStatement : FetchCl

/-- `fluentsql.QueryInstance().Select(cols...).From(name)`. -/
def queryInstanceFrom (cols : List String) (name : String) : QueryBuilder :=
  { selectCols := cols, fromTable := name, whereConds := [], joins := [],
    groupBys := [], havings := [], orderBys := [],
    limitStatement := { limit := 0, offset := 0 },
    fetchStatement := { offset := 0, fetch := 0 } }

def QueryBuilder.qbWhere (q : QueryBuilder) (f : String) (o : WhereOpt)
    (v : Option GoVal) : QueryBuilder :=
  { q with whereConds := q.whereConds ++ [leafCond f o v .and] }

def QueryBuilder.qbWhereOr (q : QueryBuilder) (f : String) (o : WhereOpt)
    (v : Option GoVal) : QueryBuilder :=
  { q with whereConds := q.whereConds ++ [leafCond f o v .or] }

def QueryBuilder.qbWhereCondition (q : QueryBuilder) (c : Condition) : QueryBuilder :=
  { q with whereConds := q.whereConds ++ [c] }

/-- `WhereGroup` with a callback that re-adds `cond.Group` verbatim — the
pattern used by every terminal operation's condition loop. -/
def QueryBuilder.qbWhereGroup (q : QueryBuilder) (gs : List Condition) : QueryBuilder :=
  { q with whereConds := q.whereConds ++ [groupCond gs] }

def QueryBuilder.qbJoin (q : QueryBuilder) (j : JoinItem) : QueryBuilder :=
  { q with joins := q.joins ++ [j] }

def QueryBuilder.qbGroupBy (q : QueryBuilder) (fs : List String) : QueryBuilder :=
  { q with groupBys := q.groupBys ++ fs }

def QueryBuilder.qbHaving (q : QueryBuilder) (f : String) (o : WhereOpt)
    (v : Option GoVal) : QueryBuilder :=
  { q with havings := q.havings ++ [leafCond f o v .and] }

def QueryBuilder.qbOrderBy (q : QueryBuilder) (f : String) (d : OrderByDir) : QueryBuilder :=
  { q with orderBys := q.orderBys ++ [(f, d)] }

def QueryBuilder.qbLimit (q : QueryBuilder) (l o : Int) : QueryBuilder :=
  { q with limitStatement := { limit := l, offset := o } }

def QueryBuilder.qbFetch (q : QueryBuilder) (o f : Int) : QueryBuilder :=
  { q with fetchStatement := { offset := o, fetch := f } }

/-- `RemoveLimit`: hand back the limit clause and zero it on the builder. -/
def QueryBuilder.qbRemoveLimit (q : QueryBuilder) : LimitCl × QueryBuilder :=
  (q.limitStatement, { q with limitStatement := { limit := 0, offset := 0 } })

/-- `RemoveFetch`: hand back the fetch clause and zero it on the builder. -/
def QueryBuilder.qbRemoveFetch (q : QueryBuilder) : FetchCl × QueryBuilder :=
  (q.fetchStatement, { q with fetchStatement := { offset := 0, fetch := 0 } })

/-- The shared dispatch of every terminal operation's loop over accumulated
WHERE conditions: group, AND leaf, or OR leaf. -/
def QueryBuilder.qbApplyCond (q : QueryBuilder) (c : Condition) : QueryBuilder :=
  if 0 < c.group.length then q.qbWhereGroup c.group
  else match c.andOr with
  | .and => q.qbWhere c.field c.opt c.value
  | .or => q.qbWhereOr c.field c.opt c.value

/-- `fluentsql.UpdateInstance().Update(name)` accumulator. -/
structure UpdateBuilder where
  table : String
  whereConds : List Condition
  sets : List (String × Option GoVal)

def UpdateBuilder.ubWhere (b : UpdateBuilder) (f : String) (o : WhereOpt)
    (v : Option GoVal) : UpdateBuilder :=
  { b with whereConds := b.whereConds ++ [leafCond f o v .and] }

def UpdateBuilder.ubWhereOr (b : UpdateBuilder) (f : String) (o : WhereOpt)
    (v : Option GoVal) : UpdateBuilder :=
  { b with whereConds := b.whereConds ++ [leafCond f o v .or] }

def UpdateBuilder.ubWhereGroup (b : UpdateBuilder) (gs : List Condition) : UpdateBuilder :=
  { b with whereConds := b.whereConds ++ [groupCond gs] }

def UpdateBuilder.ubSet (b : UpdateBuilder) (f : String) (v : Option GoVal) : UpdateBuilder :=
  { b with sets := b.sets ++ [(f, v)] }

def UpdateBuilder.ubApplyCond (b : UpdateBuilder) (c : Condition) : UpdateBuilder :=
  if 0 < c.group.length then b.ubWhereGroup c.group
  else match c.andOr with
  | .and => b.ubWhere c.field c.opt c.value
  | .or => b.ubWhereOr c.field c.opt c.value

/-- `fluentsql.DeleteInstance().Delete(name)` accumulator. -/
structure DeleteBuilder where
  table : String
  whereConds : List Condition

def DeleteBuilder.dbWhere (b : DeleteBuilder) (f : String) (o : WhereOpt)
    (v : Option GoVal) : DeleteBuilder :=
  { b with whereConds := b.whereConds ++ [leafCond f o v .and] }

def DeleteBuilder.dbWhereOr (b : DeleteBuilder) (f : String) (o : WhereOpt)
    (v : Option GoVal) : DeleteBuilder :=
  { b with whereConds := b.whereConds ++ [leafCond f o v .or] }

def DeleteBuilder.dbWhereCondition (b : DeleteBuilder) (c : Condition) : DeleteBuilder :=
  { b with whereConds := b.whereConds ++ [c] }

def DeleteBuilder.dbWhereGroup (b : DeleteBuilder) (gs : List Condition) : DeleteBuilder :=
  { b with whereConds := b.whereConds ++ [groupCond gs] }

def DeleteBuilder.dbApplyCond (b : DeleteBuilder) (c : Condition) : DeleteBuilder :=
  if 0 < c.group.length then b.dbWhereGroup c.group
  else match c.andOr with
  | .and => b.dbWhere c.field c.opt c.value
  | .or => b.dbWhereOr c.field c.opt c.value

/-- `fluentsql.InsertInstance().Insert(name, cols...).Row(values...)`. -/
structure InsertBuilder where
  table : String
  columns : List String
  row : List (Option GoVal)

/-! ## `whereFromModel` (`fluentmodel.go`) -/

/-- The equality conditions `whereFromModel` appends: one per column that is
data-bearing and non-zero, gated on `HasData`. -/
def Table.whereFromModelConds (tbl : Table) : List Condition :=
  if tbl.hasData then
    (tbl.columns.filter (fun c => !(c.isNotData || c.isZero))).map
      (fun c => leafCond c.name .Eq (tbl.value c.name) .and)
  else []

/-- `(tbl *Table).whereFromModel(queryBuilder)`. -/
def Table.whereFromModel (tbl : Table) (q : QueryBuilder) : QueryBuilder :=
  { q with whereConds := q.whereConds ++ tbl.whereFromModelConds }

/-! ## `func.go`: `toStr` and `setValue` -/

/-- Zero-pad a digit string on the left to width `w`. -/
def padLeftZeros (s : String) (w : Nat) : String :=
  if s.length ≥ w then s else String.mk (List.replicate (w - s.length) '0') ++ s

/-- `strconv.FormatFloat(v, 'f', 6, _)` on the exact rational payload:
fixed-point with six fractional digits (rounding half away from zero; binary
float rounding is below the granularity any claim observes). -/
def formatFloat6 (q : Rat) : String :=
  let sign := if q < 0 then "-" else ""
  let scaled : Int := ⌊|q| * 1000000 + 1 / 2⌋
  let ip := scaled / 1000000
  let fp := scaled % 1000000
  sign ++ toString ip ++ "." ++ padLeftZeros (toString fp.toNat) 6

/-- Parse a non-empty all-digit string. -/
def parseDecDigits (s : String) : Option Nat :=
  if 0 < s.length && s.data.all Char.isDigit then
    some (s.data.foldl (fun a c => a * 10 + (c.toNat - 48)) 0)
  else none

/-- Parse an optionally-signed decimal integer (Go `ParseInt` base-10 syntax). -/
def parseDecInt (s : String) : Option Int :=
  if strStartsWith s "-" then (parseDecDigits (strDrop s 1)).map (fun n => -(n : Int))
  else if strStartsWith s "+" then (parseDecDigits (strDrop s 1)).map (fun n => (n : Int))
  else (parseDecDigits s).map (fun n => (n : Int))

/-- Clamp to the signed range of a bit width (Go `ParseInt` returns the
clamped extreme on range error, and the library ignores the error). -/
def clampSigned (n : Int) (bits : Nat) : Int :=
  max (-(2 ^ (bits - 1))) (min n (2 ^ (bits - 1) - 1))

/-- `strconv.ParseInt(s, 10, bits)` with the error discarded: syntax errors
yield 0, range errors yield the clamped extreme. -/
def goParseInt (s : String) (bits : Nat) : Int :=
  match parseDecInt s with
  | some n => clampSigned n bits
  | none => 0

/-- `strconv.Atoi` with the error discarded (64-bit platform). -/
def goAtoi (s : String) : Int := goParseInt s 64

/-- `strconv.ParseUint(s, 10, bits)` with the error discarded: signs are a
syntax error (0), range errors clamp to the maximum. -/
def goParseUint (s : String) (bits : Nat) : Int :=
  if strStartsWith s "-" || strStartsWith s "+" then 0
  else match parseDecDigits s with
    | some n => min (n : Int) (2 ^ bits - 1)
    | none => 0

/-- Parse `intPart.fracPart` digit strings into an exact rational. -/
def parseDecFrac (ip fp : String) : Option Rat :=
  if (0 < ip.length || 0 < fp.length) && ip.data.all Char.isDigit
      && fp.data.all Char.isDigit then
    let ipn : Nat := ip.data.foldl (fun a c => a * 10 + (c.toNat - 48)) 0
    let fpn : Nat := fp.data.foldl (fun a c => a * 10 + (c.toNat - 48)) 0
    some ((ipn : Rat) + (fpn : Rat) / ((10 : Rat) ^ fp.length))
  else none

/-- `strconv.ParseFloat` with the error discarded, modelled on plain decimal
forms only.  Go also accepts exponent, Inf/NaN and hex-float syntax, and
since `toStr` passes raw strings and `json.Number` data through verbatim
such inputs can reach `setValue`; this embedding parses them as 0, so
theorems stated over it do not distinguish those inputs from unparsable
ones (none of the properties proved here depend on that corner). -/
def goParseFloat (s : String) : Rat :=
  let signed : Rat × String :=
    if strStartsWith s "-" then (-1, strDrop s 1)
    else if strStartsWith s "+" then (1, strDrop s 1)
    else (1, s)
  match splitOnChar '.' signed.2 with
  | [ip] =>
    (match parseDecFrac ip "" with
     | some q => signed.1 * q
     | none => 0)
  | [ip, fp] =>
    (match parseDecFrac ip fp with
     | some q => signed.1 * q
     | none => 0)
  | _ => 0

/-- `toStr`: string rendering switched on the dynamic type; note that only
`int`, `int64`, `uint`, `uint64` and `uint32` integers are handled — the
other widths (and bools) fall to the default empty string. -/
def toStr : GoVal → String
  | .vFloat64 q => formatFloat6 q
  | .vFloat32 q => formatFloat6 q
  | .vInt .int n => toString n
  | .vInt .int64 n => toString n
  | .vInt .uint n => toString n
  | .vInt .uint64 n => toString n
  | .vInt .uint32 n => toString n
  | .vJsonNumber s => s
  | .vStr s => s
  | .vBytes s => s
  | _ => ""

/-- `reflect.Kind` of a struct field, as `setValue` switches on it. -/
inductive GoKind where
  | kString | kBool | kInt | kInt8 | kInt16 | kInt32 | kInt64
  | kUint | kUint8 | kUint16 | kUint32 | kUint64 | kFloat32 | kFloat64
  | kInvalid | kOther
  deriving DecidableEq, Repr

/-- Kind of the field holding a given value (`json.Number`'s kind is String). -/
def GoVal.kind : GoVal → GoKind
  | .vStr _ => .kString
  | .vBool _ => .kBool
  | .vInt .int _ => .kInt
  | .vInt .int8 _ => .kInt8
  | .vInt .int16 _ => .kInt16
  | .vInt .int32 _ => .kInt32
  | .vInt .int64 _ => .kInt64
  | .vInt .uint _ => .kUint
  | .vInt .uint8 _ => .kUint8
  | .vInt .uint16 _ => .kUint16
  | .vInt .uint32 _ => .kUint32
  | .vInt .uint64 _ => .kUint64
  | .vFloat64 _ => .kFloat64
  | .vFloat32 _ => .kFloat32
  | .vJsonNumber _ => .kString
  | .vBytes _ => .kOther
  | .vOther _ => .kOther

/-- Kind of a possibly-invalid field value. -/
def kindO : Option GoVal → GoKind
  | none => .kInvalid
  | some v => v.kind

/-- The conversion switch of `setValue`: the reflect value `val` computed for
the target field kind (`none` inside = `val` stayed invalid) and the error;
the outer `none` is a type-assertion panic (`data.(string)`, `data.(bool)`,
`data.(int64)` on a mismatched dynamic type). -/
def setValueConvert (kind : GoKind) (data : GoVal) :
    Option (Option GoVal × Option DbError) :=
  let dataStr := toStr data
  match kind with
  | .kString =>
    (match data with
     | .vStr s => some (some (.vStr s), none)
     | _ => none)
  | .kBool =>
    (match data with
     | .vBool b => some (some (.vBool b), none)
     | _ => none)
  | .kInt => some (some (.vInt .int (goAtoi dataStr)), none)
  | .kInt8 => some (some (.vInt .int8 (goParseInt dataStr 8)), none)
  | .kInt16 => some (some (.vInt .int16 (goParseInt dataStr 16)), none)
  | .kInt32 => some (some (.vInt .int32 (goParseInt dataStr 32)), none)
  | .kInt64 =>
    (match data with
     | .vInt .int64 n => some (some (.vInt .int64 n), none)
     | _ => none)
  | .kUint => some (some (.vInt .uint (Int.emod (goAtoi dataStr) (2 ^ 64))), none)
  | .kUint8 => some (some (.vInt .uint8 (goParseUint dataStr 8)), none)
  | .kUint16 => some (some (.vInt .uint16 (goParseUint dataStr 16)), none)
  | .kUint32 => some (some (.vInt .uint32 (goParseUint dataStr 32)), none)
  | .kUint64 => some (some (.vInt .uint64 (goParseUint dataStr 64)), none)
  | .kFloat32 => some (some (.vFloat32 (goParseFloat dataStr)), none)
  | .kFloat64 => some (some (.vFloat64 (goParseFloat dataStr)), none)
  | .kInvalid => some (none, some (.unknownType "Unknown type"))
  | .kOther => some (none, some (.unknownType "Unknown type"))

/-- `setValue` at the level of one field: the value written into the field
(`none` when `isSet` is false and `field.Set` is skipped) and the returned
error; the outer `none` is a panic. -/
def setValueField (kind : GoKind) (data : GoVal) :
    Option (Option GoVal × Option DbError) :=
  (setValueConvert kind data).map
    (fun p =>
      let isSet := p.1.isSome && !isZeroO p.1
      ((if isSet then p.1 else none), p.2))

/-- `FieldByName` on the embedded struct. -/
def GoStruct.fieldByName (s : GoStruct) (key : String) : Option GoField :=
  s.fields.find? (fun f => f.fname = key)

/-- Functional field update (the effect of `field.Set(val)`). -/
def GoStruct.setField (s : GoStruct) (key : String) (v : GoVal) : GoStruct :=
  { s with
    fields := s.fields.map
      (fun f => if f.fname = key then { f with value := some v } else f) }

/-- The reflect kind of `FieldByName(key)` (Invalid for a missing field). -/
def fieldKindOf (s : GoStruct) (key : String) : GoKind :=
  match s.fieldByName key with
  | some f => kindO f.value
  | none => .kInvalid

/-- `setValue(model, key, data)` on a struct: a missing field name yields the
Invalid kind and hence the default (error) branch. -/
def setValueStruct (s : GoStruct) (key : String) (data : GoVal) :
    Option (GoStruct × Option DbError) :=
  match setValueField (fieldKindOf s key) data with
  | none => none
  | some (written, err) =>
    match written with
    | some v => some (s.setField key v, err)
    | none => some (s, err)

/-- `setValue` on a model value: `reflect.Indirect(...).FieldByName` panics
on anything that is not a struct or pointer to one.  A by-value struct model
is an unaddressable copy inside the interface, so reaching `field.Set(val)`
(`isSet` true) panics with "reflect.Value.Set using unaddressable value";
only the no-set paths (zero conversion, Unknown-type error) return.  A
pointer model is made addressable by `reflect.Indirect` and the set lands in
the pointed-to struct. -/
def setValueModel (m : GoModel) (key : String) (data : GoVal) :
    Option (GoModel × Option DbError) :=
  match m with
  | .struct s =>
    (match setValueField (fieldKindOf s key) data with
     | none => none
     | some (written, err) =>
       match written with
       | some _ => none
       | none => some (.struct s, err))
  | .ptr s =>
    (setValueStruct s key data).map (fun p => (.ptr p.1, p.2))
  | _ => none

/-! ## The `DBModel` fluent builder (`fluentmodel.go`) -/

/-- The mutable fluent-builder state. -/
structure DBModel where
  txActive : Bool
  model : Option GoModel
  rawSqlStr : String
  rawArgs : List (Option GoVal)
  selectCols : List String
  omitCols : List String
  whereConds : List Condition
  joinItems : List JoinItem
  groupByItems : List String
  havingConds : List Condition
  orderByItems : List (String × OrderByDir)
  limitStatement : LimitCl
  fetchStatement : FetchCl

/-- `Instance()`: the empty builder. -/
def Instance : DBModel :=
  { txActive := false, model := none, rawSqlStr := "", rawArgs := [],
    selectCols := [], omitCols := [], whereConds := [], joinItems := [],
    groupByItems := [], havingConds := [], orderByItems := [],
    limitStatement := { limit := 0, offset := 0 },
    fetchStatement := { offset := 0, fetch := 0 } }

/-- `reset()`: clears exactly the fields the source clears.  Note what it
does not touch: `raw.args`, `limitStatement.Offset`, `fetchStatement.Offset`
and the transaction handle survive. -/
def DBModel.reset (db : DBModel) : DBModel :=
  { db with
    model := none,
    rawSqlStr := "",
    selectCols := [],
    omitCols := [],
    whereConds := [],
    joinItems := [],
    groupByItems := [],
    havingConds := [],
    orderByItems := [],
    limitStatement := { db.limitStatement with limit := 0 },
    fetchStatement := { db.fetchStatement with fetch := 0 } }

def DBModel.Raw (db : DBModel) (sqlStr : String) (args : List (Option GoVal)) : DBModel :=
  { db with rawSqlStr := sqlStr, rawArgs := args }

def DBModel.Select (db : DBModel) (columns : List String) : DBModel :=
  { db with selectCols := columns }

def DBModel.Omit (db : DBModel) (columns : List String) : DBModel :=
  { db with omitCols := columns }

def DBModel.Model (db : DBModel) (m : GoModel) : DBModel :=
  { db with model := some m }

def DBModel.Where (db : DBModel) (f : String) (o : WhereOpt) (v : Option GoVal) : DBModel :=
  { db with whereConds := db.whereConds ++ [leafCond f o v .and] }

def DBModel.WhereOr (db : DBModel) (f : String) (o : WhereOpt) (v : Option GoVal) : DBModel :=
  { db with whereConds := db.whereConds ++ [leafCond f o v .or] }

def DBModel.WhereGroup (db : DBModel) (gs : List Condition) : DBModel :=
  { db with whereConds := db.whereConds ++ [groupCond gs] }

def DBModel.Join (db : DBModel) (j : JoinItem) : DBModel :=
  { db with joinItems := db.joinItems ++ [j] }

def DBModel.Having (db : DBModel) (f : String) (o : WhereOpt) (v : Option GoVal) : DBModel :=
  { db with havingConds := db.havingConds ++ [leafCond f o v .and] }

def DBModel.GroupBy (db : DBModel) (fields : List String) : DBModel :=
  { db with groupByItems := db.groupByItems ++ fields }

def DBModel.OrderBy (db : DBModel) (f : String) (d : OrderByDir) : DBModel :=
  { db with orderByItems := db.orderByItems ++ [(f, d)] }

def DBModel.Limit (db : DBModel) (l o : Int) : DBModel :=
  { db with limitStatement := { limit := l, offset := o } }

def DBModel.Fetch (db : DBModel) (o f : Int) : DBModel :=
  { db with fetchStatement := { offset := o, fetch := f } }

/-! ## Driver execution model

The sqlx driver and the SQL text generation are external collaborators.  A
terminal operation's interaction with them is recorded as the list of
statements it sent; the driver's answers come from a deterministic response
oracle `DbEnv`. -/

/-- `fluentsql.IsDialect`: the active SQL dialect. -/
inductive Dialect where
  | postgres | mysql
  deriving DecidableEq, Repr

/-- A statement sent to the driver, kept in structured (pre-`Sql()`) form. -/
inductive Stmt where
  | selectQ (q : QueryBuilder)
  | countQ (inner : QueryBuilder) (asName : String)
  | insertQ (b : InsertBuilder) (returning : String)
  | updateQ (b : UpdateBuilder)
  | deleteQ (b : DeleteBuilder)
  | rawQ (sqlStr : String) (args : List (Option GoVal))

/-- The driver's responses, per statement: `Exec` errors, `Get`/`Select`
errors, the scalar read by the COUNT query, and the generated ids returned
through `RETURNING ... Scan` (PostgreSQL) or `LastInsertId` (MySQL). -/
structure DbEnv where
  dialect : Dialect
  execResult : Stmt → Option DbError
  getRowResult : Stmt → Option DbError
  queryResult : Stmt → Option DbError
  countResult : Stmt → Except DbError Int
  scanIdResult : Stmt → Except DbError GoVal
  lastIdResult : Stmt → Except DbError GoVal

/-- `addRaw` (`fluentmodel.go`): PostgreSQL appends `RETURNING <col>` and
scans the id; MySQL executes with the error discarded and then asks the
result for its last insert id — after a failed `Exec` the result is nil and
that dereference panics. -/
def addRawStmt (env : DbEnv) (sqlStr : String) (args : List (Option GoVal))
    (primaryColumn : String) : Outcome GoVal × List Stmt :=
  match env.dialect with
  | .postgres =>
    let sql1 :=
      if primaryColumn ≠ "" then sqlStr ++ " RETURNING " ++ primaryColumn
      else sqlStr
    let stmt := Stmt.rawQ sql1 args
    (match env.scanIdResult stmt with
     | .ok id => (.ok id, [stmt])
     | .error e => (.err e, [stmt]))
  | .mysql =>
    let stmt := Stmt.rawQ sqlStr args
    (match env.execResult stmt with
     | some _ => (.panicked, [stmt])
     | none =>
       match env.lastIdResult stmt with
       | .ok id => (.ok id, [stmt])
       | .error e => (.err e, [stmt]))

/-- `add` (`fluentmodel.go`): the same dialect handling applied to a
structured INSERT (the source lowers the builder to SQL text first; here the
RETURNING column is carried alongside the structured statement). -/
def addStmt (env : DbEnv) (b : InsertBuilder) (primaryColumn : String) :
    Outcome GoVal × List Stmt :=
  match env.dialect with
  | .postgres =>
    let stmt := Stmt.insertQ b (if primaryColumn ≠ "" then primaryColumn else "")
    (match env.scanIdResult stmt with
     | .ok id => (.ok id, [stmt])
     | .error e => (.err e, [stmt]))
  | .mysql =>
    let stmt := Stmt.insertQ b ""
    (match env.execResult stmt with
     | some _ => (.panicked, [stmt])
     | none =>
       match env.lastIdResult stmt with
       | .ok id => (.ok id, [stmt])
       | .error e => (.err e, [stmt]))

/-! ## `create_builder.go` -/

/-- `createByStruct`'s column/value collection: every data-bearing
non-primary column, filtered by the Select allow-list and Omit deny-list. -/
def insertColumnsValues (db : DBModel) (table : Table) :
    List String × List (Option GoVal) :=
  table.columns.foldl
    (fun (acc : List String × List (Option GoVal)) c =>
      if c.isNotData || c.primary then acc
      else if 0 < db.selectCols.length && !db.selectCols.contains c.name then acc
      else if 0 < db.omitCols.length && db.omitCols.contains c.name then acc
      else (acc.1 ++ [c.name], acc.2 ++ [table.value c.name]))
    ([], [])

/-- The INSERT builder `createByStruct` assembles. -/
def insertBuilderOf (db : DBModel) (table : Table) : InsertBuilder :=
  { table := table.name, columns := (insertColumnsValues db table).1,
    row := (insertColumnsValues db table).2 }

/-- `var primaryColumn Column; if len(table.Primaries) == 1 { primaryColumn =
table.Primaries[0] }` — the zero `Column` otherwise. -/
def createPrimaryColumn (table : Table) : Column :=
  if table.primaries.length = 1 then table.primaries.headD default else default

/-- `createByStruct`: reflect, build the INSERT over data-bearing non-primary
columns filtered by Select/Omit, execute, and write the returned id back when
the table has exactly one primary column. -/
def DBModel.createByStructOp (db : DBModel) (env : DbEnv) (model : GoModel) :
    Outcome Unit × GoModel × List Stmt :=
  match ModelData model with
  | .err e => (.err e, model, [])
  | .panicked => (.panicked, model, [])
  | .fatal => (.fatal, model, [])
  | .ok table =>
    match addStmt env (insertBuilderOf db table) (createPrimaryColumn table).name with
    | (.ok id, tr) =>
      if (createPrimaryColumn table).key ≠ "" then
        match setValueModel model (createPrimaryColumn table).key id with
        | none => (.panicked, model, tr)
        | some (model', err?) =>
          (match err? with
           | some e => (.err e, model', tr)
           | none => (.ok (), model', tr))
      else (.ok (), model, tr)
    | (.err e, tr) => (.err e, model, tr)
    | (.panicked, tr) => (.panicked, model, tr)
    | (.fatal, tr) => (.fatal, model, tr)

/-- `createBySlice`'s element filter: pointer and struct elements are
processed, anything else leaves `indirectVal` invalid and is skipped. -/
def sliceItemValid : GoModel → Bool
  | .struct _ => true
  | .ptr _ => true
  | _ => false

/-- `createBySlice`'s loop: `err` is overwritten by each valid element's
insert, so the iteration continues past element failures (a Go panic still
aborts it). -/
def DBModel.createBySliceLoop (db : DBModel) (env : DbEnv) :
    List GoModel → Outcome Unit → List GoModel → List Stmt →
    Outcome Unit × List GoModel × List Stmt
  | [], errAcc, done, tr => (errAcc, done.reverse, tr)
  | it :: rest, errAcc, done, tr =>
    if sliceItemValid it then
      match db.createByStructOp env it with
      | (.panicked, it', tr') => (.panicked, (it' :: done).reverse ++ rest, tr ++ tr')
      | (.fatal, it', tr') => (.fatal, (it' :: done).reverse ++ rest, tr ++ tr')
      | (res, it', tr') => db.createBySliceLoop env rest res (it' :: done) (tr ++ tr')
    else db.createBySliceLoop env rest errAcc (it :: done) tr

/-- `createByMap`: set each non-zero map entry on the bound model (keeping
only the last entry's `setValue` error), then insert the model as a struct. -/
def DBModel.createByMapOp (db : DBModel) (env : DbEnv)
    (entries : List (String × GoVal)) : Outcome Unit × List Stmt :=
  match db.model with
  | none => (.err (.missingModel "Missing model for map value"), [])
  | some m =>
    let step : Option (GoModel × Option DbError) :=
      entries.foldlM
        (fun (p : GoModel × Option DbError) kv =>
          if !kv.2.isZeroVal then
            match setValueModel p.1 kv.1 kv.2 with
            | none => none
            | some (m', err?) => some (m', err?)
          else some p)
        (m, none)
    match step with
    | none => (.panicked, [])
    | some (_, some e) => (.err e, [])
    | some (m', none) =>
      let (res, _, tr) := db.createByStructOp env m'
      (res, tr)

/-- `createByRaw`: reflect the model for its primary column, run the raw SQL
through `addRaw`, and write the id back like the struct case. -/
def DBModel.createByRawOp (db : DBModel) (env : DbEnv) (model : GoModel) :
    Outcome Unit × GoModel × List Stmt :=
  match ModelData model with
  | .err e => (.err e, model, [])
  | .panicked => (.panicked, model, [])
  | .fatal => (.fatal, model, [])
  | .ok table =>
    match addRawStmt env db.rawSqlStr db.rawArgs (createPrimaryColumn table).name with
    | (.ok id, tr) =>
      if (createPrimaryColumn table).key ≠ "" then
        match setValueModel model (createPrimaryColumn table).key id with
        | none => (.panicked, model, tr)
        | some (model', err?) =>
          (match err? with
           | some e => (.err e, model', tr)
           | none => (.ok (), model', tr))
      else (.ok (), model, tr)
    | (.err e, tr) => (.err e, model, tr)
    | (.panicked, tr) => (.panicked, model, tr)
    | (.fatal, tr) => (.fatal, model, tr)

/-- `Create`: dispatch on the model's runtime kind; a non-nil error is passed
to `log.Fatal` (process exit, builder state not reset), otherwise the builder
is reset.  A kind no case matches leaves `err` nil. -/
def DBModel.createOp (db : DBModel) (env : DbEnv) (model : GoModel) :
    Outcome Unit × GoModel × DBModel × List Stmt :=
  let step : Outcome Unit × GoModel × List Stmt :=
    if db.rawSqlStr ≠ "" then db.createByRawOp env model
    else match model with
      | .mapVal entries =>
        let (r, tr) := db.createByMapOp env entries
        (r, model, tr)
      | .slice items =>
        let (r, items', tr) := db.createBySliceLoop env items (.ok ()) [] []
        (r, .slice items', tr)
      | .struct _ => db.createByStructOp env model
      | .ptr _ => db.createByStructOp env model
      | .nilPtr => db.createByStructOp env model
      | .otherVal => (.ok (), model, [])
  match step with
  | (.ok _, m', tr) => (.ok (), m', db.reset, tr)
  | (.err _, m', tr) => (.fatal, m', db, tr)
  | (.panicked, m', tr) => (.panicked, m', db, tr)
  | (.fatal, m', tr) => (.fatal, m', db, tr)

/-! ## `count` (`fluentmodel.go`) -/

/-- `count`: strip fetch and limit off the query builder, run
`SELECT COUNT(*) AS total FROM (q) _result_out_`, and restore the pagination
clauses afterwards (only on success — an error returns with them stripped). -/
def countOp (env : DbEnv) (q : QueryBuilder) :
    Except DbError Int × QueryBuilder × List Stmt :=
  let fq := q.qbRemoveFetch
  let lq := fq.2.qbRemoveLimit
  let stmt := Stmt.countQ lq.2 "_result_out_"
  match env.countResult stmt with
  | .error e => (.error e, lq.2, [stmt])
  | .ok total =>
    let q3 := ((lq.2.qbLimit lq.1.limit lq.1.offset).qbFetch fq.1.offset fq.1.fetch)
    (.ok total, q3, [stmt])

/-! ## `query_builder.go`: `Get` (First/Last/Take) and `Find` -/

/-- The single-row retrieval strategies. -/
inductive GetOne where
  | GetFirst | GetLast | TakeOne
  deriving DecidableEq, Repr

/-- `crypto/rand.Int(rand.Reader, max)`: uniform in `[0, max)`, panicking
(`none`) when `max ≤ 0`; `entropy` abstracts the value drawn. -/
def goRandInt (entropy : Nat) (max1 : Int) : Option Int :=
  if max1 ≤ 0 then none else some ((entropy : Int) % max1)

/-- The SELECT query `Get` builds before executing: primary-key conditions
(only for non-nil primary values), accumulated conditions, struct-derived
conditions, joins, grouping, having, pagination, and the ordering strategy.
`none` is a panic (`table.Columns[0]` on an empty column list, or the secure
random draw with a non-positive bound). -/
def buildGetQuery (db : DBModel) (table : Table) (getType : GetOne)
    (ent1 ent2 : Nat) : Option QueryBuilder :=
  let selectColumns := if 0 < db.selectCols.length then db.selectCols else ["*"]
  let q0 := (queryInstanceFrom selectColumns table.name).qbLimit 1 0
  let q1 := table.primaries.foldl
    (fun q p =>
      match table.value p.name with
      | some v => q.qbWhereCondition (leafCond p.name .Eq (some v) .and)
      | none => q)
    q0
  let q2 := db.whereConds.foldl QueryBuilder.qbApplyCond q1
  let q3 := table.whereFromModel q2
  let q4 := db.joinItems.foldl QueryBuilder.qbJoin q3
  let q5 := if 0 < db.groupByItems.length then q4.qbGroupBy db.groupByItems else q4
  let q6 := db.havingConds.foldl (fun q c => q.qbHaving c.field c.opt c.value) q5
  let q7 :=
    if 0 < db.limitStatement.limit then
      q6.qbLimit db.limitStatement.limit db.limitStatement.offset
    else q6
  let q8 :=
    if 0 < db.fetchStatement.fetch then
      q7.qbFetch db.fetchStatement.offset db.fetchStatement.fetch
    else q7
  let obf? : Option String :=
    match table.primaries with
    | p :: _ => some p.name
    | [] =>
      match table.columns with
      | c :: _ => some c.name
      | [] => none
  match obf? with
  | none => none
  | some obf =>
    match getType with
    | .TakeOne =>
      (match goRandInt ent1 ((table.columns.length : Int) - 1) with
       | none => none
       | some n =>
         let obf2 := (table.columns.getD n.toNat default).name
         let n2 := (goRandInt ent2 10).getD 0
         let dir := if n2 % 2 = 1 then OrderByDir.Asc else OrderByDir.Desc
         some (q8.qbOrderBy obf2 dir))
    | .GetLast => some (q8.qbOrderBy obf (if obf ≠ "" then .Desc else .Asc))
    | .GetFirst => some (q8.qbOrderBy obf .Asc)

/-- `Get`: raw SQL short-circuit (panicking on a driver error), model type
validation (an error return with no reset), query construction, execution
(panicking on error), then reset.  The `GetFirst` direction when the order
field is empty coincides with the `OrderByDir` zero value `Asc`. -/
def DBModel.getOp (db : DBModel) (env : DbEnv) (model : GoModel) (getType : GetOne)
    (ent1 ent2 : Nat) : Outcome Unit × DBModel × List Stmt :=
  if db.rawSqlStr ≠ "" then
    let stmt := Stmt.rawQ db.rawSqlStr db.rawArgs
    match env.getRowResult stmt with
    | some _ => (.panicked, db, [stmt])
    | none => (.ok (), db.reset, [stmt])
  else
    match model with
    | .mapVal _ => (.err (.invalidModel "Invalid data :: model not Struct type"), db, [])
    | .slice _ => (.err (.invalidModel "Invalid data :: model not Struct type"), db, [])
    | .otherVal => (.err (.invalidModel "Invalid data :: model not Struct type"), db, [])
    | m =>
      match ModelData m with
      | .err _ => (.panicked, db, [])
      | .panicked => (.panicked, db, [])
      | .fatal => (.panicked, db, [])
      | .ok table =>
        match buildGetQuery db table getType ent1 ent2 with
        | none => (.panicked, db, [])
        | some q =>
          let stmt := Stmt.selectQ q
          match env.getRowResult stmt with
          | some _ => (.panicked, db, [stmt])
          | none => (.ok (), db.reset, [stmt])

/-- `First` retrieves with the `GetFirst` strategy. -/
def DBModel.firstOp (db : DBModel) (env : DbEnv) (model : GoModel) :
    Outcome Unit × DBModel × List Stmt :=
  db.getOp env model .GetFirst 0 0

/-- `Last` retrieves with the `GetLast` strategy. -/
def DBModel.lastOp (db : DBModel) (env : DbEnv) (model : GoModel) :
    Outcome Unit × DBModel × List Stmt :=
  db.getOp env model .GetLast 0 0

/-- `Find`'s target: a pointer to a slice of some element struct type, or
anything else (which panics).  The element type's shape is its field list. -/
inductive FindTarget where
  | ptrSlice (elemTypeName : String) (elemFields : List GoField)
  | badTarget

/-- The SELECT query `Find` builds: like `Get` but with no primary-key
conditions, no implicit LIMIT 1 and the accumulated ORDER BY items.  The
element table comes from `processModel` on a fresh `NewTable` (the element
type's name is never applied) with an invalid value for every field:
`reflect.ValueOf(typeElement).Elem()` is not a value of the element struct,
so the `value.NumField() == typ.NumField()` guard fails and every
`valueField` is the invalid Value. -/
def buildFindQuery (db : DBModel) (table : Table) : QueryBuilder :=
  let selectColumns := if 0 < db.selectCols.length then db.selectCols else ["*"]
  let q0 := queryInstanceFrom selectColumns table.name
  let q1 := db.whereConds.foldl QueryBuilder.qbApplyCond q0
  let q2 := table.whereFromModel q1
  let q3 := db.joinItems.foldl QueryBuilder.qbJoin q2
  let q4 := if 0 < db.groupByItems.length then q3.qbGroupBy db.groupByItems else q3
  let q5 := db.havingConds.foldl (fun q c => q.qbHaving c.field c.opt c.value) q4
  let q6 :=
    if 0 < db.limitStatement.limit then
      q5.qbLimit db.limitStatement.limit db.limitStatement.offset
    else q5
  let q7 :=
    if 0 < db.fetchStatement.fetch then
      q6.qbFetch db.fetchStatement.offset db.fetchStatement.fetch
    else q6
  db.orderByItems.foldl (fun q p => q.qbOrderBy p.1 p.2) q7

/-- `Find`: raw short-circuit (row query then a raw COUNT wrapper), target
validation (panic), query construction, row query, COUNT query, reset.  All
driver errors panic. -/
def DBModel.findOp (db : DBModel) (env : DbEnv) (target : FindTarget) :
    Outcome Int × DBModel × List Stmt :=
  if db.rawSqlStr ≠ "" then
    let stmt := Stmt.rawQ db.rawSqlStr db.rawArgs
    match env.queryResult stmt with
    | some _ => (.panicked, db, [stmt])
    | none =>
      let sqlCount := "SELECT COUNT(*) AS total FROM (" ++ db.rawSqlStr ++ ") _result_out_"
      let cstmt := Stmt.rawQ sqlCount db.rawArgs
      match env.countResult cstmt with
      | .error _ => (.panicked, db, [stmt, cstmt])
      | .ok total => (.ok total, db.reset, [stmt, cstmt])
  else
    match target with
    | .badTarget => (.panicked, db, [])
    | .ptrSlice _ elemFields =>
      match processFields NewTable (elemFields.map (fun f => { f with value := none })) with
      | none => (.panicked, db, [])
      | some table =>
        let q := buildFindQuery db table
        let stmt := Stmt.selectQ q
        match env.queryResult stmt with
        | some _ => (.panicked, db, [stmt])
        | none =>
          match countOp env q with
          | (.error _, _, ctr) => (.panicked, db, stmt :: ctr)
          | (.ok total, _, ctr) => (.ok total, db.reset, stmt :: ctr)

/-! ## `update_builder.go` (struct update with primary-key fallback) -/

/-- `updateByStruct`'s loop over the accumulated WHERE conditions (the Bool
is `hasCondition`). -/
def updateExplicitWhere (db : DBModel) (table : Table) : UpdateBuilder × Bool :=
  db.whereConds.foldl (fun p c => (p.1.ubApplyCond c, true))
    (({ table := table.name, whereConds := [], sets := [] } : UpdateBuilder), false)

/-- `updateByStruct`'s WHERE construction: the accumulated conditions, else
(as fallback) an equality per primary column from the struct's values — with
no nil check on the value. -/
def buildUpdateWhere (db : DBModel) (table : Table) : UpdateBuilder × Bool :=
  if !(updateExplicitWhere db table).2 then
    table.columns.foldl
      (fun p c =>
        if c.primary then (p.1.ubWhere c.name .Eq (table.value c.name), true)
        else p)
      (updateExplicitWhere db table)
  else updateExplicitWhere db table

/-- The SET clauses `updateByStruct` adds after its WHERE construction. -/
def buildUpdateSets (table : Table) (b : UpdateBuilder) : UpdateBuilder :=
  table.columns.foldl
    (fun b c =>
      if c.isNotData || c.primary then b
      else b.ubSet c.name (table.value c.name))
    b

/-- `updateByStruct`: WHERE from the accumulated conditions, else an equality
per primary column from the struct's values (with no nil check), else a
missing-WHERE panic; SET from every non-primary data-bearing column. -/
def DBModel.updateByStructOp (db : DBModel) (env : DbEnv) (model : GoModel) :
    Outcome Unit × List Stmt :=
  match ModelData model with
  | .err _ => (.panicked, [])
  | .panicked => (.panicked, [])
  | .fatal => (.panicked, [])
  | .ok table =>
    let s2 := buildUpdateWhere db table
    if !s2.2 then (.panicked, [])
    else
      let stmt := Stmt.updateQ (buildUpdateSets table s2.1)
      match env.execResult stmt with
      | some e => (.err e, [stmt])
      | none => (.ok (), [stmt])

/-- `updateByMap`: set each non-zero entry on the bound model (`setValue`
errors are only logged), then update it as a struct. -/
def DBModel.updateByMapOp (db : DBModel) (env : DbEnv)
    (entries : List (String × GoVal)) : Outcome Unit × List Stmt :=
  match db.model with
  | none => (.err (.missingModel "Missing model for map value"), [])
  | some m =>
    let step : Option GoModel :=
      entries.foldlM
        (fun mAcc kv =>
          if !kv.2.isZeroVal then
            match setValueModel mAcc kv.1 kv.2 with
            | none => none
            | some (m', _) => some m'
          else some mAcc)
        m
    match step with
    | none => (.panicked, [])
    | some m' => db.updateByStructOp env m'

/-- `Update`: raw/map/struct dispatch; any returned error is re-raised as a
panic, otherwise the builder resets.  An unmatched kind leaves `err` nil. -/
def DBModel.updateOp (db : DBModel) (env : DbEnv) (model : GoModel) :
    Outcome Unit × DBModel × List Stmt :=
  let step : Outcome Unit × List Stmt :=
    if db.rawSqlStr ≠ "" then
      let stmt := Stmt.rawQ db.rawSqlStr db.rawArgs
      (match env.execResult stmt with
       | some e => (.err e, [stmt])
       | none => (.ok (), [stmt]))
    else match model with
      | .mapVal entries => db.updateByMapOp env entries
      | .struct _ => db.updateByStructOp env model
      | .ptr _ => db.updateByStructOp env model
      | .nilPtr => db.updateByStructOp env model
      | _ => (.ok (), [])
  match step with
  | (.ok _, tr) => (.ok (), db.reset, tr)
  | (.err _, tr) => (.panicked, db, tr)
  | (.panicked, tr) => (.panicked, db, tr)
  | (.fatal, tr) => (.fatal, db, tr)

/-! ## `delete_builder.go` (the current `Delete`) -/

/-- `Delete`'s primary-key WHERE loop: an equality condition per primary
column whose reflected value is non-nil (the Bool is `hasCondition`). -/
def deletePrimaryWhere (table : Table) : DeleteBuilder × Bool :=
  table.primaries.foldl
    (fun p pc =>
      match table.value pc.name with
      | some v => (p.1.dbWhereCondition (leafCond pc.name .Eq (some v) .and), true)
      | none => p)
    (({ table := table.name, whereConds := [] } : DeleteBuilder), false)

/-- `Delete`'s WHERE construction: the primary-key conditions, then the
accumulated conditions. -/
def buildDeleteWhere (db : DBModel) (table : Table) : DeleteBuilder × Bool :=
  db.whereConds.foldl (fun p c => (p.1.dbApplyCond c, true)) (deletePrimaryWhere table)

/-- `Delete`: a raw SQL prefix (which on success resets and falls through to
the model-based delete), then primary-key conditions for non-nil primary
values plus the accumulated conditions; with no condition at all it returns
the missing-WHERE error without resetting.  The final execution resets the
builder whether or not the driver reports an error. -/
def DBModel.deleteOp (db : DBModel) (env : DbEnv) (model : GoModel) :
    Outcome Unit × DBModel × List Stmt :=
  let raw : Outcome Unit × DBModel × List Stmt :=
    if db.rawSqlStr ≠ "" then
      let stmt := Stmt.rawQ db.rawSqlStr db.rawArgs
      (match env.execResult stmt with
       | some e => (.err e, db, [stmt])
       | none => (.ok (), db.reset, [stmt]))
    else (.ok (), db, [])
  match raw with
  | (.err e, db', tr) => (.err e, db', tr)
  | (.panicked, db', tr) => (.panicked, db', tr)
  | (.fatal, db', tr) => (.fatal, db', tr)
  | (.ok _, db', tr) =>
    match ModelData model with
    | .err e => (.err e, db', tr)
    | .panicked => (.panicked, db', tr)
    | .fatal => (.panicked, db', tr)
    | .ok table =>
      let s2 := buildDeleteWhere db' table
      if !s2.2 then
        (.err (.missingWhere "Missing WHERE condition for deleting operator"), db', tr)
      else
        let stmt := Stmt.deleteQ s2.1
        match env.execResult stmt with
        | some e => (.err e, db'.reset, tr ++ [stmt])
        | none => (.ok (), db'.reset, tr ++ [stmt])

/-! ## Fixtures: a driver oracle and concrete models -/

/-- A driver that answers every statement successfully (inserts return id 7). -/
def envOk : DbEnv :=
  { dialect := .postgres,
    execResult := fun _ => none,
    getRowResult := fun _ => none,
    queryResult := fun _ => none,
    countResult := fun _ => .ok 0,
    scanIdResult := fun _ => .ok (.vInt .int64 7),
    lastIdResult := fun _ => .ok (.vInt .int64 7) }

/-- `ID int64` with tag `name:id;type:serial,primary`, value 0 (unset). -/
def exFieldId : GoField :=
  { fname := "ID", tag := "name:id;type:serial,primary", isMetaData := false,
    isSliceType := false, value := some (.vInt .int64 0) }

/-- `Name string` with tag `name:name;type:varchar`, value "Kite". -/
def exFieldName : GoField :=
  { fname := "Name", tag := "name:name;type:varchar", isMetaData := false,
    isSliceType := false, value := some (.vStr "Kite") }

/-- A `User` whose serial primary key is unset (zero). -/
def exSerialPkZero : GoStruct :=
  { typeName := "User", fields := [exFieldId, exFieldName] }

/-- A one-field struct with no primary key. -/
def exNoPk : GoStruct := { typeName := "User", fields := [exFieldName] }

/-- A struct whose only mapped field holds its type's zero value. -/
def exAllZero : GoStruct :=
  { typeName := "User",
    fields := [{ fname := "Name", tag := "", isMetaData := false,
                 isSliceType := false, value := some (.vStr "") }] }

/-! ## Lemmas about the reflector -/

theorem mapGet_mapSet_self {α : Type} (m : List (String × α)) (k : String) (v : α) :
    mapGet (mapSet m k v) k = some v := by
  induction m with
  | nil => simp [mapSet, mapGet]
  | cons p rest ih =>
    by_cases h : p.1 = k
    · simp [mapSet, mapGet, h]
    · simp [mapSet, mapGet, h, ih]

/-- Does `processModel` record this field as carrying data (raising
`HasData`)?  Read off the source's `validValue && validValueType`. -/
def fieldCarriesData (f : GoField) : Bool :=
  match readTags f.tag with
  | none => false
  | some attr =>
    !f.isMetaData &&
      (isValidO f.value &&
        ((isSerialTok (attrGet attr tagTYPE) && canIntO f.value && !isZeroO f.value)
          || !isSerialTok (attrGet attr tagTYPE)))

theorem processField_hasData (tbl t1 : Table) (f : GoField)
    (h : processField tbl f = some t1) :
    t1.hasData = (tbl.hasData || fieldCarriesData f) := by
  unfold processField at h
  unfold fieldCarriesData
  split at h
  · exact absurd h (by simp)
  case _ attr hrt =>
    try simp only [hrt]
    split at h
    case _ hm =>
      simp only [hm, Bool.not_true, Bool.false_and, Bool.or_false]
      split at h <;> (injection h with h2; subst h2; simp)
    case _ hm =>
      simp only [Bool.not_eq_true] at hm
      simp only [hm, Bool.not_false, Bool.true_and]
      split at h
      · exact absurd h (by simp)
      case _ refStr hrs =>
        injection h with h2
        subst h2
        simp only [processFieldCore]
        by_cases hc : (isValidO f.value &&
            ((isSerialTok (attrGet attr tagTYPE) && canIntO f.value && !isZeroO f.value)
              || !isSerialTok (attrGet attr tagTYPE))) = true
        · simp [hc]
        · simp only [Bool.not_eq_true] at hc
          simp [hc]

theorem processFields_hasData (fields : List GoField) (tbl t1 : Table)
    (h : processFields tbl fields = some t1) :
    t1.hasData = (tbl.hasData || fields.any fieldCarriesData) := by
  induction fields generalizing tbl with
  | nil =>
    injection h with h2
    subst h2
    simp
  | cons f rest ih =>
    unfold processFields at h
    split at h
    · exact absurd h (by simp)
    case _ tmid hmid =>
      rw [ih tmid h, processField_hasData tbl tmid f hmid]
      simp [Bool.or_assoc]

/-- The reflected table of `exAllZero` (as the embedding computes it). -/
def exAllZeroTable : Table :=
  { name := "user", primarySerial := none, primaries := [],
    columns := [{ key := "Name", name := "name", serial := false,
                  primary := false, types := "BOOLEAN ", ref := "",
                  relation := "", isZero := true, hasValue := true }],
    values := [("name", some (.vStr ""))], hasData := true }

/-- C2, counterexample: the claim says a struct whose mapped fields are all
their type's zero value reflects to `hasData = false`.  `exAllZero` has a
single zero-valued (`""`) non-serial string field, yet `processModel` records
every valid non-serial field — zero or not — and raises `hasData`, so the
reflector returns `hasData = true`. -/
theorem c2_counterexample :
    (∀ f ∈ exAllZero.fields, isZeroO f.value = true) ∧
    ModelData (.struct exAllZero) = .ok exAllZeroTable ∧
    exAllZeroTable.hasData = true := by
  refine ⟨?_, by decide, rfl⟩
  intro f hf
  simp only [exAllZero, List.mem_singleton] at hf
  subst hf
  rfl

/-- C2, amended: `hasData` is true iff at least one non-meta field is
reflectively valid and either not serial, or serial with a non-zero signed
integer value (`fieldCarriesData`).  Zero-valued non-serial fields do raise
`hasData`; they are instead excluded from struct-derived conditions by the
`IsZero` flag, which `whereFromModel` checks per column. -/
theorem c2_hasData_characterization (s : GoStruct) (t : Table)
    (h : ModelData (.struct s) = .ok t) :
    t.hasData = s.fields.any fieldCarriesData := by
  simp only [ModelData] at h
  split at h
  case _ t' heq =>
    injection h with h2
    subst h2
    rw [processFields_hasData s.fields _ _ heq]
    rfl
  · simp at h

/-- Witness for the amended C2 at the concrete `exAllZero`. -/
theorem c2_hasData_characterization_witness :
    exAllZeroTable.hasData = exAllZero.fields.any fieldCarriesData :=
  c2_hasData_characterization exAllZero exAllZeroTable (by decide)

theorem bool_carries_comm (v s ci z : Bool) :
    (v && ((s && ci && !z) || !s)) = (v && (!s || (s && ci && !z))) := by
  cases v <;> cases s <;> cases ci <;> cases z <;> rfl

/-- C8: in `processModel` a non-meta field is recorded as carrying data
(`HasValue` true, its runtime value stored in `Values`, `hasData` raised)
exactly when it is reflectively valid and either is not a serial column or is
a serial column holding a non-zero (signed) integer value; otherwise — in
particular for a zero-valued serial column — its `Values` entry is nil and
`HasValue` is false. -/
theorem c8_value_recording (tbl t1 : Table) (f : GoField)
    (attr : List (String × List String))
    (hrt : readTags f.tag = some attr) (hmeta : f.isMetaData = false)
    (hpf : processField tbl f = some t1) :
    ∃ c : Column,
      t1.columns = tbl.columns ++ [c] ∧
      c.name = fieldColName attr f ∧
      c.serial = isSerialTok (attrGet attr tagTYPE) ∧
      c.hasValue = (isValidO f.value &&
        (!isSerialTok (attrGet attr tagTYPE) ||
          (isSerialTok (attrGet attr tagTYPE) && canIntO f.value && !isZeroO f.value))) ∧
      (c.hasValue = true →
        mapGet t1.values c.name = some f.value ∧ t1.hasData = true) ∧
      (c.hasValue = false →
        mapGet t1.values c.name = some none ∧ c.isZero = true) := by
  unfold processField at hpf
  split at hpf
  case _ hnone => rw [hnone] at hrt; exact absurd hrt (by simp)
  case _ attr2 hrt2 =>
    rw [hrt2] at hrt
    injection hrt with hattr
    subst hattr
    rw [hmeta] at hpf
    simp only [Bool.false_eq_true, if_false] at hpf
    split at hpf
    · exact absurd hpf (by simp)
    case _ refStr hrs =>
      injection hpf with h2
      subst h2
      simp only [processFieldCore]
      refine ⟨_, rfl, rfl, rfl, ?_, ?_, ?_⟩
      · exact bool_carries_comm _ _ _ _
      · intro hv
        simp only at hv
        rw [hv]
        exact ⟨mapGet_mapSet_self tbl.values (fieldColName attr2 f) f.value, rfl⟩
      · intro hv
        simp only at hv
        rw [hv]
        exact ⟨mapGet_mapSet_self tbl.values (fieldColName attr2 f) none, rfl⟩

/-- The column `processModel` builds for `exFieldId`. -/
def exIdColumn : Column :=
  { key := "ID", name := "id", serial := true, primary := true,
    types := "SERIAL PRIMARY KEY ", ref := "", relation := "",
    isZero := true, hasValue := false }

/-- `processField NewTable exFieldId` (as the embedding computes it). -/
def exSerialPkZeroIdTable : Table :=
  { name := "", primarySerial := some exIdColumn, primaries := [exIdColumn],
    columns := [exIdColumn], values := [("id", none)], hasData := false }

/-- Witness for C8 at the zero-valued serial primary field `exFieldId`. -/
theorem c8_value_recording_witness :
    ∃ c : Column,
      exSerialPkZeroIdTable.columns = NewTable.columns ++ [c] ∧
      c.name = fieldColName [("name", ["id"]), ("type", ["serial", "primary"])] exFieldId ∧
      c.serial = isSerialTok (attrGet [("name", ["id"]), ("type", ["serial", "primary"])] tagTYPE) ∧
      c.hasValue = (isValidO exFieldId.value &&
        (!isSerialTok (attrGet [("name", ["id"]), ("type", ["serial", "primary"])] tagTYPE) ||
          (isSerialTok (attrGet [("name", ["id"]), ("type", ["serial", "primary"])] tagTYPE) &&
            canIntO exFieldId.value && !isZeroO exFieldId.value))) ∧
      (c.hasValue = true →
        mapGet exSerialPkZeroIdTable.values c.name = some exFieldId.value ∧
          exSerialPkZeroIdTable.hasData = true) ∧
      (c.hasValue = false →
        mapGet exSerialPkZeroIdTable.values c.name = some none ∧ c.isZero = true) :=
  c8_value_recording NewTable exSerialPkZeroIdTable exFieldId
    [("name", ["id"]), ("type", ["serial", "primary"])] (by decide) (by decide) (by decide)

/-! ## C10: the `setValue` zero-value gate -/

/-- The field kinds `setValue`'s switch supports (everything but the default
branch). -/
def supportedKind : GoKind → Bool
  | .kInvalid => false
  | .kOther => false
  | _ => true

theorem setValueConvert_supported_shape (k : GoKind) (d : GoVal)
    (hs : supportedKind k = true) (p : Option GoVal × Option DbError)
    (h : setValueConvert k d = some p) : ∃ val, p = (some val, none) := by
  cases k
  case kString =>
    cases d <;> simp only [setValueConvert] at h
    case vStr str => injection h with h2; exact ⟨_, h2.symm⟩
    all_goals exact absurd h (by simp)
  case kBool =>
    cases d <;> simp only [setValueConvert] at h
    case vBool b => injection h with h2; exact ⟨_, h2.symm⟩
    all_goals exact absurd h (by simp)
  case kInt64 =>
    cases d <;> simp only [setValueConvert] at h
    case vInt ik n =>
      cases ik <;> simp only [] at h
      case int64 => injection h with h2; exact ⟨_, h2.symm⟩
      all_goals exact absurd h (by simp)
    all_goals exact absurd h (by simp)
  case kInvalid => simp [supportedKind] at hs
  case kOther => simp [supportedKind] at hs
  all_goals (simp only [setValueConvert] at h; injection h with h2; exact ⟨_, h2.symm⟩)

/-- C10: for a supported target field kind, `setValue` returns nil and
assigns the converted value only when it is non-zero (a zero conversion
leaves the struct unchanged); an unsupported field kind (including a missing
field name) returns an error and leaves the struct unchanged. -/
theorem c10_setValue_zero_gate (s : GoStruct) (key : String) (data : GoVal)
    (s' : GoStruct) (e : Option DbError)
    (h : setValueStruct s key data = some (s', e)) :
    (supportedKind (fieldKindOf s key) = true →
       e = none ∧
       ∃ val : GoVal, setValueConvert (fieldKindOf s key) data = some (some val, none) ∧
         (val.isZeroVal = true → s' = s) ∧
         (val.isZeroVal = false → s' = s.setField key val)) ∧
    (supportedKind (fieldKindOf s key) = false →
       (∃ er : DbError, e = some er) ∧ s' = s) := by
  constructor
  · intro hs
    obtain ⟨p, hp⟩ : ∃ p, setValueConvert (fieldKindOf s key) data = some p := by
      cases hc : setValueConvert (fieldKindOf s key) data with
      | none =>
        unfold setValueStruct setValueField at h
        rw [hc] at h
        simp at h
      | some p => exact ⟨p, rfl⟩
    obtain ⟨val, rfl⟩ := setValueConvert_supported_shape _ _ hs _ hp
    unfold setValueStruct setValueField at h
    rw [hp] at h
    by_cases hz : val.isZeroVal = true
    · simp [isZeroO, hz] at h
      exact ⟨h.2.symm, val, hp, fun _ => h.1.symm, fun hzf => absurd hz (by simp [hzf])⟩
    · simp only [Bool.not_eq_true] at hz
      simp [isZeroO, hz] at h
      refine ⟨h.2.symm, val, hp, fun hzt => absurd hzt (by simp [hz]), fun _ => h.1.symm⟩
  · intro hs
    have hk : fieldKindOf s key = .kInvalid ∨ fieldKindOf s key = .kOther := by
      cases hfk : fieldKindOf s key <;> simp [supportedKind, hfk] at hs ⊢
    rcases hk with hk | hk <;>
      (unfold setValueStruct setValueField at h
       rw [hk] at h
       simp [setValueConvert, isZeroO] at h
       exact ⟨⟨_, h.2.symm⟩, h.1.symm⟩)

/-- `exNoPk` after assigning `Name := "Bob"`. -/
def exNoPkSetBob : GoStruct :=
  { typeName := "User",
    fields := [{ fname := "Name", tag := "name:name;type:varchar",
                 isMetaData := false, isSliceType := false,
                 value := some (.vStr "Bob") }] }

/-- Witness for C10 at a concrete string-field assignment. -/
theorem c10_setValue_zero_gate_witness :
    (supportedKind (fieldKindOf exNoPk "Name") = true →
       (none : Option DbError) = none ∧
       ∃ val : GoVal,
         setValueConvert (fieldKindOf exNoPk "Name") (.vStr "Bob") = some (some val, none) ∧
         (val.isZeroVal = true → exNoPkSetBob = exNoPk) ∧
         (val.isZeroVal = false → exNoPkSetBob = exNoPk.setField "Name" val)) ∧
    (supportedKind (fieldKindOf exNoPk "Name") = false →
       (∃ er : DbError, (none : Option DbError) = some er) ∧ exNoPkSetBob = exNoPk) :=
  c10_setValue_zero_gate exNoPk "Name" (.vStr "Bob") exNoPkSetBob none (by decide)

/-! ## C1: the Update/Delete missing-WHERE safety gate -/

/-- The `Name` column of the reflected `User`. -/
def exNameColumn : Column :=
  { key := "Name", name := "name", serial := false, primary := false,
    types := "VARCHAR ", ref := "", relation := "", isZero := false,
    hasValue := true }

/-- The reflected table of `exSerialPkZero` (serial PK unset, Name "Kite"). -/
def exSerialPkZeroTable : Table :=
  { name := "user", primarySerial := some exIdColumn,
    primaries := [exIdColumn], columns := [exIdColumn, exNameColumn],
    values := [("id", none), ("name", some (.vStr "Kite"))], hasData := true }

/-- The reflected table of `exNoPk`. -/
def exNoPkTable : Table :=
  { name := "user", primarySerial := none, primaries := [],
    columns := [exNameColumn],
    values := [("name", some (.vStr "Kite"))], hasData := true }

/-- C1 counterexample: `exSerialPkZero` carries no primary-key value (its
serial PK is zero, reflected to a nil `Values` entry) and no WHERE condition
is chained, yet `Update` succeeds and sends an UPDATE statement to the
driver (its primary-key fallback adds `id = NULL` without a nil check) —
the claim says it must fail with MissingWhereCondition and send nothing. -/
theorem c1_counterexample :
    ModelData (.struct exSerialPkZero) = .ok exSerialPkZeroTable ∧
    (∀ c ∈ exSerialPkZeroTable.primaries, exSerialPkZeroTable.value c.name = none) ∧
    Instance.whereConds = [] ∧ Instance.rawSqlStr = "" ∧
    (Instance.updateOp envOk (.struct exSerialPkZero)).1 = .ok () ∧
    (Instance.updateOp envOk (.struct exSerialPkZero)).2.2.length = 1 := by
  refine ⟨by decide, ?_, rfl, rfl, by decide, by decide⟩
  intro c hc
  simp only [exSerialPkZeroTable, List.mem_singleton] at hc
  subst hc
  decide

theorem delete_primary_fold_const (tbl : Table) (l : List Column)
    (p : DeleteBuilder × Bool)
    (hnil : ∀ c ∈ l, tbl.value c.name = none) :
    l.foldl
      (fun p pc =>
        match tbl.value pc.name with
        | some v => (p.1.dbWhereCondition (leafCond pc.name .Eq (some v) .and), true)
        | none => p)
      p = p := by
  induction l generalizing p with
  | nil => rfl
  | cons c rest ih =>
    simp only [List.foldl_cons]
    rw [hnil c (by simp)]
    exact ih _ (fun c2 hc2 => hnil c2 (by simp [hc2]))

theorem update_primary_fold_skip (tbl : Table) (l : List Column)
    (p : UpdateBuilder × Bool)
    (hnp : ∀ c ∈ l, c.primary = false) :
    l.foldl
      (fun p c =>
        if c.primary then (p.1.ubWhere c.name .Eq (tbl.value c.name), true)
        else p)
      p = p := by
  induction l generalizing p with
  | nil => rfl
  | cons c rest ih =>
    simp only [List.foldl_cons, hnp c (by simp), Bool.false_eq_true, if_false]
    exact ih _ (fun c2 hc2 => hnp c2 (by simp [hc2]))

/-- C1, amended: with no chained WHERE condition and no usable primary-key
value, `Delete` always returns the MissingWhereCondition error, leaves the
builder untouched and sends nothing to the driver; `Update` fails the same
way (though by panicking rather than returning the error) only when the
reflected table has no primary column at all — when a primary column exists,
its fallback adds an equality against the nil value and proceeds (see the
counterexample). -/
theorem c1_mutation_safety (db : DBModel) (env : DbEnv) (m : GoModel)
    (tbl : Table)
    (hraw : db.rawSqlStr = "") (hw : db.whereConds = [])
    (hmd : ModelData m = .ok tbl)
    (hnilpk : ∀ c ∈ tbl.primaries, tbl.value c.name = none) :
    db.deleteOp env m =
      (.err (.missingWhere "Missing WHERE condition for deleting operator"), db, []) ∧
    ((∀ c ∈ tbl.columns, c.primary = false) →
      db.updateOp env m = (.panicked, db, [])) := by
  constructor
  · unfold DBModel.deleteOp
    simp only [hraw, ne_eq, not_true_eq_false, if_false, reduceCtorEq]
    simp only [hmd]
    unfold buildDeleteWhere deletePrimaryWhere
    rw [delete_primary_fold_const tbl tbl.primaries _ hnilpk, hw]
    rfl
  · intro hnopk
    have hstep : DBModel.updateByStructOp db env m = (.panicked, []) := by
      unfold DBModel.updateByStructOp
      simp only [hmd]
      unfold buildUpdateWhere updateExplicitWhere
      rw [hw]
      simp only [List.foldl_nil, Bool.not_false, if_true]
      rw [update_primary_fold_skip tbl tbl.columns _ hnopk]
      rfl
    unfold DBModel.updateOp
    simp only [hraw, ne_eq, not_true_eq_false, if_false, reduceCtorEq]
    cases m <;> simp only [ModelData, reduceCtorEq] at hmd <;> try exact absurd hmd (by simp)
    case struct s => rw [hstep]
    case ptr s => rw [hstep]

/-- Witness for the amended C1: Delete fails with MissingWhereCondition both
for a table whose single primary column holds a nil reflected value
(`exSerialPkZero`, the no-usable-primary-key-value case) and for the
no-primary-column `exNoPk`; Update panics that way only in the latter case. -/
theorem c1_mutation_safety_witness :
    Instance.deleteOp envOk (.struct exSerialPkZero) =
      (.err (.missingWhere "Missing WHERE condition for deleting operator"), Instance, []) ∧
    Instance.deleteOp envOk (.struct exNoPk) =
      (.err (.missingWhere "Missing WHERE condition for deleting operator"), Instance, []) ∧
    Instance.updateOp envOk (.struct exNoPk) = (.panicked, Instance, []) :=
  ⟨(c1_mutation_safety Instance envOk (.struct exSerialPkZero) exSerialPkZeroTable rfl rfl
      (by decide)
      (by intro c hc
          simp only [exSerialPkZeroTable, List.mem_singleton] at hc
          subst hc
          decide)).1,
   (c1_mutation_safety Instance envOk (.struct exNoPk) exNoPkTable rfl rfl
      (by decide)
      (by intro c hc; simp only [exNoPkTable] at hc; simp at hc)).1,
   (c1_mutation_safety Instance envOk (.struct exNoPk) exNoPkTable rfl rfl
      (by decide)
      (by intro c hc; simp only [exNoPkTable] at hc; simp at hc)).2
     (by intro c hc; simp only [exNoPkTable, List.mem_singleton] at hc; subst hc; rfl)⟩

/-! ## C3: the reset discipline -/

/-- The builder state the spec says every terminal operation clears. -/
def clearedState (db : DBModel) : Prop :=
  db.model = none ∧ db.rawSqlStr = "" ∧ db.selectCols = [] ∧ db.omitCols = [] ∧
  db.whereConds = [] ∧ db.joinItems = [] ∧ db.groupByItems = [] ∧
  db.havingConds = [] ∧ db.orderByItems = [] ∧
  db.limitStatement.limit = 0 ∧ db.fetchStatement.fetch = 0

theorem clearedState_reset (db : DBModel) : clearedState db.reset :=
  ⟨rfl, rfl, rfl, rfl, rfl, rfl, rfl, rfl, rfl, rfl, rfl⟩

theorem getOp_ok_reset (db : DBModel) (env : DbEnv) (m : GoModel) (g : GetOne)
    (e1 e2 : Nat) (res : Outcome Unit) (st : DBModel) (tr : List Stmt)
    (h : db.getOp env m g e1 e2 = (res, st, tr)) (hok : res = .ok ()) :
    clearedState st := by
  subst hok
  unfold DBModel.getOp at h
  simp only [] at h
  repeat' split at h
  all_goals simp_all [Prod.mk.injEq]
  all_goals first
    | (rw [← h.1]; exact clearedState_reset _)
    | (rw [← h.2.1]; exact clearedState_reset _)
    | (rw [← h.2.2.1]; exact clearedState_reset _)

theorem findOp_ok_reset (db : DBModel) (env : DbEnv) (tgt : FindTarget)
    (res : Outcome Int) (st : DBModel) (tr : List Stmt)
    (h : db.findOp env tgt = (res, st, tr)) (n : Int) (hok : res = .ok n) :
    clearedState st := by
  subst hok
  unfold DBModel.findOp at h
  simp only [] at h
  repeat' split at h
  all_goals simp_all [Prod.mk.injEq]
  all_goals first
    | (rw [← h.1]; exact clearedState_reset _)
    | (rw [← h.2.1]; exact clearedState_reset _)
    | (rw [← h.2.2.1]; exact clearedState_reset _)

theorem createOp_ok_reset (db : DBModel) (env : DbEnv) (m : GoModel)
    (res : Outcome Unit) (m2 : GoModel) (st : DBModel) (tr : List Stmt)
    (h : db.createOp env m = (res, m2, st, tr)) (hok : res = .ok ()) :
    clearedState st := by
  subst hok
  unfold DBModel.createOp at h
  simp only [] at h
  repeat' split at h
  all_goals simp_all [Prod.mk.injEq]
  all_goals first
    | (rw [← h.1]; exact clearedState_reset _)
    | (rw [← h.2.1]; exact clearedState_reset _)
    | (rw [← h.2.2.1]; exact clearedState_reset _)

theorem updateOp_ok_reset (db : DBModel) (env : DbEnv) (m : GoModel)
    (res : Outcome Unit) (st : DBModel) (tr : List Stmt)
    (h : db.updateOp env m = (res, st, tr)) (hok : res = .ok ()) :
    clearedState st := by
  subst hok
  unfold DBModel.updateOp at h
  simp only [] at h
  repeat' split at h
  all_goals simp_all [Prod.mk.injEq]
  all_goals first
    | (rw [← h.1]; exact clearedState_reset _)
    | (rw [← h.2.1]; exact clearedState_reset _)
    | (rw [← h.2.2.1]; exact clearedState_reset _)

theorem deleteOp_ok_reset (db : DBModel) (env : DbEnv) (m : GoModel)
    (res : Outcome Unit) (st : DBModel) (tr : List Stmt)
    (h : db.deleteOp env m = (res, st, tr)) (hok : res = .ok ()) :
    clearedState st := by
  subst hok
  unfold DBModel.deleteOp at h
  simp only [] at h
  repeat' split at h
  all_goals simp_all [Prod.mk.injEq]
  all_goals first
    | (rw [← h.1]; exact clearedState_reset _)
    | (rw [← h.2.1]; exact clearedState_reset _)
    | (rw [← h.2.2.1]; exact clearedState_reset _)

/-- C3, counterexample: after chaining an ORDER BY and calling `Delete` on a
model with no usable WHERE source, the operation returns the
MissingWhereCondition error but the builder still holds the accumulated
ORDER BY item — the error path returns before `reset()`. -/
theorem c3_counterexample :
    (∃ e, ((Instance.OrderBy "name" .Asc).deleteOp envOk (.struct exNoPk)).1 = .err e) ∧
    ((Instance.OrderBy "name" .Asc).deleteOp envOk (.struct exNoPk)).2.1.orderByItems =
      [("name", .Asc)] := by
  constructor
  · exact ⟨.missingWhere "Missing WHERE condition for deleting operator", by decide⟩
  · decide

/-- C3, amended: a terminal operation that RETURNS SUCCESSFULLY has cleared
the listed builder state (model, raw SQL string, select/omit columns,
where/join/group-by/having/order-by, limit count, fetch count — though not
the raw SQL arguments or the limit/fetch offsets, which `reset()` never
touches).  Failure paths do not all reset: `Delete`'s MissingWhereCondition
and reflection-error returns and `Get`'s invalid-model return leave the
accumulated state in place, and the panicking paths never reach `reset()`. -/
theorem c3_reset_on_success (db : DBModel) (env : DbEnv) (m : GoModel)
    (tgt : FindTarget) (g : GetOne) (e1 e2 : Nat) :
    ((db.getOp env m g e1 e2).1 = .ok () → clearedState (db.getOp env m g e1 e2).2.1) ∧
    (∀ n : Int, (db.findOp env tgt).1 = .ok n → clearedState (db.findOp env tgt).2.1) ∧
    ((db.createOp env m).1 = .ok () → clearedState (db.createOp env m).2.2.1) ∧
    ((db.updateOp env m).1 = .ok () → clearedState (db.updateOp env m).2.1) ∧
    ((db.deleteOp env m).1 = .ok () → clearedState (db.deleteOp env m).2.1) :=
  ⟨fun hok => getOp_ok_reset db env m g e1 e2 _ _ _ rfl hok,
   fun n hok => findOp_ok_reset db env tgt _ _ _ rfl n hok,
   fun hok => createOp_ok_reset db env m _ _ _ _ rfl hok,
   fun hok => updateOp_ok_reset db env m _ _ _ rfl hok,
   fun hok => deleteOp_ok_reset db env m _ _ _ rfl hok⟩

/-- Witness for the amended C3 at concrete inputs (no hypotheses beyond the
universally quantified ones; instantiated at the fixture builder). -/
theorem c3_reset_on_success_witness :
    ((Instance.getOp envOk (.struct exNoPk) .GetFirst 0 0).1 = .ok () →
      clearedState (Instance.getOp envOk (.struct exNoPk) .GetFirst 0 0).2.1) ∧
    (∀ n : Int, (Instance.findOp envOk (.ptrSlice "User" [exFieldName])).1 = .ok n →
      clearedState (Instance.findOp envOk (.ptrSlice "User" [exFieldName])).2.1) ∧
    ((Instance.createOp envOk (.struct exNoPk)).1 = .ok () →
      clearedState (Instance.createOp envOk (.struct exNoPk)).2.2.1) ∧
    ((Instance.updateOp envOk (.struct exNoPk)).1 = .ok () →
      clearedState (Instance.updateOp envOk (.struct exNoPk)).2.1) ∧
    ((Instance.deleteOp envOk (.struct exNoPk)).1 = .ok () →
      clearedState (Instance.deleteOp envOk (.struct exNoPk)).2.1) :=
  c3_reset_on_success Instance envOk (.struct exNoPk)
    (.ptrSlice "User" [exFieldName]) .GetFirst 0 0

/-! ## C4: batch create continues past element failures -/

theorem addStmt_trace (env : DbEnv) (b : InsertBuilder) (pc : String) :
    ∃ r, (addStmt env b pc).2 = [Stmt.insertQ b r] := by
  unfold addStmt
  cases hd : env.dialect
  · simp only []
    split <;> exact ⟨_, rfl⟩
  · simp only []
    split
    · exact ⟨_, rfl⟩
    · split <;> exact ⟨_, rfl⟩

theorem ModelData_structOrPtr_cases (m : GoModel) (hv : sliceItemValid m = true) :
    (∃ t, ModelData m = .ok t) ∨ ModelData m = .panicked := by
  cases m
  case struct s =>
    simp only [ModelData]
    cases hp : processFields (mdInitTable s.typeName) s.fields
    · right; rfl
    · left; exact ⟨_, rfl⟩
  case ptr s =>
    simp only [ModelData]
    cases hp : processFields (mdInitTable "") s.fields
    · right; rfl
    · left; exact ⟨_, rfl⟩
  all_goals simp [sliceItemValid] at hv

theorem createByStructOp_md_panicked (db : DBModel) (env : DbEnv) (m : GoModel)
    (h : ModelData m = .panicked) :
    (db.createByStructOp env m).1 = .panicked := by
  unfold DBModel.createByStructOp
  simp only [h]

theorem createByStructOp_trace_ok (db : DBModel) (env : DbEnv) (m : GoModel)
    (tbl : Table) (hmd : ModelData m = .ok tbl) :
    (db.createByStructOp env m).2.2 =
      (addStmt env (insertBuilderOf db tbl) (createPrimaryColumn tbl).name).2 := by
  unfold DBModel.createByStructOp
  simp only [hmd]
  split
  all_goals rename_i heq
  all_goals rw [heq]
  all_goals (repeat' split)
  all_goals rfl

/-- The statements one slice element contributes (skipped elements none). -/
def elementTrace (db : DBModel) (env : DbEnv) (it : GoModel) : List Stmt :=
  if sliceItemValid it then (db.createByStructOp env it).2.2 else []

theorem createBySliceLoop_trace (db : DBModel) (env : DbEnv) (items : List GoModel)
    (errAcc : Outcome Unit) (done : List GoModel) (tr : List Stmt)
    (hnp : ∀ it ∈ items, sliceItemValid it = true →
      (db.createByStructOp env it).1 ≠ .panicked ∧
      (db.createByStructOp env it).1 ≠ .fatal) :
    (db.createBySliceLoop env items errAcc done tr).2.2 =
      tr ++ (items.map (elementTrace db env)).flatten := by
  induction items generalizing errAcc done tr with
  | nil => simp [DBModel.createBySliceLoop]
  | cons it rest ih =>
    unfold DBModel.createBySliceLoop
    by_cases hv : sliceItemValid it = true
    · rw [if_pos hv]
      split
      all_goals
        first
          | (rename_i heq
             exact absurd (congrArg Prod.fst heq) (hnp it (by simp) hv).1)
          | (rename_i heq
             exact absurd (congrArg Prod.fst heq) (hnp it (by simp) hv).2)
          | (rename_i heq
             rw [ih _ _ _ (fun x hx => hnp x (by simp [hx]))]
             simp [elementTrace, hv, heq, List.append_assoc])
    · rw [if_neg hv]
      rw [ih _ _ _ (fun x hx => hnp x (by simp [hx]))]
      simp only [Bool.not_eq_true] at hv
      simp [elementTrace, hv]

/-- C4: iterating a slice, `createBySlice` attempts the insert of every
valid element in order even when an earlier element's insert failed with an
error (the loop variable `err` is simply overwritten): the trace is exactly
the concatenation of the per-element traces, every statement sent is an
INSERT (nothing compensates or undoes prior inserts), and every valid
element contributes its (non-empty) insert attempt. -/
theorem c4_slice_create_continues (db : DBModel) (env : DbEnv)
    (items : List GoModel)
    (hnp : ∀ it ∈ items, sliceItemValid it = true →
      (db.createByStructOp env it).1 ≠ .panicked ∧
      (db.createByStructOp env it).1 ≠ .fatal) :
    (db.createBySliceLoop env items (.ok ()) [] []).2.2 =
      (items.map (elementTrace db env)).flatten ∧
    (∀ s ∈ (items.map (elementTrace db env)).flatten, ∃ b r, s = Stmt.insertQ b r) ∧
    (∀ it ∈ items, sliceItemValid it = true → elementTrace db env it ≠ []) := by
  refine ⟨createBySliceLoop_trace db env items _ _ _ hnp, ?_, ?_⟩
  · intro s hs
    obtain ⟨a, ha, hsa⟩ := List.mem_flatten.mp hs
    obtain ⟨it, hit, rfl⟩ := List.mem_map.mp ha
    unfold elementTrace at hsa
    by_cases hv : sliceItemValid it = true
    · rw [if_pos hv] at hsa
      rcases ModelData_structOrPtr_cases it hv with ⟨t, ht⟩ | ht
      · rw [createByStructOp_trace_ok db env it t ht] at hsa
        obtain ⟨r, hr⟩ := addStmt_trace env (insertBuilderOf db t) (createPrimaryColumn t).name
        rw [hr] at hsa
        simp only [List.mem_singleton] at hsa
        exact ⟨_, _, hsa⟩
      · exact absurd (createByStructOp_md_panicked db env it ht) (hnp it hit hv).1
    · simp [hv] at hsa
  · intro it hit hv
    unfold elementTrace
    rw [if_pos hv]
    rcases ModelData_structOrPtr_cases it hv with ⟨t, ht⟩ | ht
    · rw [createByStructOp_trace_ok db env it t ht]
      obtain ⟨r, hr⟩ := addStmt_trace env (insertBuilderOf db t) (createPrimaryColumn t).name
      rw [hr]
      simp
    · exact absurd (createByStructOp_md_panicked db env it ht) (hnp it hit hv).1

/-- Witness for C4: a two-element slice where the first element's insert
fails (driver error on table "bad") and the second succeeds. -/
def envFailBad : DbEnv :=
  { envOk with
    scanIdResult := fun s =>
      match s with
      | .insertQ b _ => if b.table = "bad" then .error (.driver 1) else .ok (.vInt .int64 7)
      | _ => .ok (.vInt .int64 7) }

/-- A struct reflecting to table "bad". -/
def exBad : GoStruct :=
  { typeName := "Bad",
    fields := [{ fname := "X", tag := "name:x;type:varchar", isMetaData := false,
                 isSliceType := false, value := some (.vStr "v") }] }

theorem c4_slice_create_continues_witness :
    (Instance.createBySliceLoop envFailBad [.struct exBad, .struct exNoPk] (.ok ()) [] []).2.2 =
      (([.struct exBad, .struct exNoPk] : List GoModel).map
        (elementTrace Instance envFailBad)).flatten ∧
    (∀ s ∈ (([.struct exBad, .struct exNoPk] : List GoModel).map
        (elementTrace Instance envFailBad)).flatten, ∃ b r, s = Stmt.insertQ b r) ∧
    (∀ it ∈ ([.struct exBad, .struct exNoPk] : List GoModel),
      sliceItemValid it = true → elementTrace Instance envFailBad it ≠ []) := by
  refine c4_slice_create_continues Instance envFailBad [.struct exBad, .struct exNoPk] ?_
  intro it hit hv
  simp only [List.mem_cons, List.mem_singleton, List.not_mem_nil, or_false] at hit
  rcases hit with rfl | rfl
  · exact ⟨by decide, by decide⟩
  · exact ⟨by decide, by decide⟩

/-! ## C6: id write-back iff exactly one primary column -/

/-- The table `ModelData` reflects for `&exSerialPkZero`: a pointer model's
`reflect.TypeOf(model).Name()` is the empty string, so only the table name
differs from the by-value reflection. -/
def exSerialPkZeroPtrTable : Table :=
  { exSerialPkZeroTable with name := "" }

/-- `exSerialPkZero` after the returned id 7 is set into its `ID` field. -/
def exSerialPkSeven : GoStruct :=
  { typeName := "User",
    fields := [{ exFieldId with value := some (.vInt .int64 7) }, exFieldName] }

/-- C6 counterexample: a by-value struct insert with a single primary column
does NOT get the returned id written back — `field.Set` on the unaddressable
interface copy panics after the INSERT was already executed (trace length 1),
leaving the caller's struct unchanged; the same insert through a pointer
model succeeds and lands id 7 in the struct behind the pointer. -/
theorem c6_counterexample :
    (Instance.createByStructOp envOk (.struct exSerialPkZero)).1 = .panicked ∧
    (Instance.createByStructOp envOk (.struct exSerialPkZero)).2.1 = .struct exSerialPkZero ∧
    (Instance.createByStructOp envOk (.struct exSerialPkZero)).2.2.length = 1 ∧
    (Instance.createByStructOp envOk (.ptr exSerialPkZero)).1 = .ok () ∧
    (Instance.createByStructOp envOk (.ptr exSerialPkZero)).2.1 = .ptr exSerialPkSeven :=
  ⟨rfl, rfl, rfl, rfl, rfl⟩

/-- C6 (amended): on a pointer-to-struct insert whose table has exactly one
primary column, the id the database returns is written back through
`setValue` into the struct behind the pointer; a by-value struct model
instead panics at `field.Set` (the interface holds an unaddressable copy)
whenever the write-back is reached with a valid non-zero converted id; with
zero or composite primaries the zero `Column`'s empty key suppresses the
write-back entirely and the model — either shape — is returned unchanged. -/
theorem c6_id_writeback (db : DBModel) (env : DbEnv) (s : GoStruct)
    (tblP tblS : Table)
    (hmdP : ModelData (.ptr s) = .ok tblP)
    (hmdS : ModelData (.struct s) = .ok tblS) :
    (∀ p : Column, tblP.primaries = [p] → p.key ≠ "" →
      ∀ id tr2, addStmt env (insertBuilderOf db tblP) p.name = (.ok id, tr2) →
      ∀ s2 e2, setValueStruct s p.key id = some (s2, e2) →
        (db.createByStructOp env (.ptr s)).2.1 = .ptr s2) ∧
    (∀ p : Column, tblS.primaries = [p] → p.key ≠ "" →
      ∀ id tr2, addStmt env (insertBuilderOf db tblS) p.name = (.ok id, tr2) →
      ∀ w e2, setValueField (fieldKindOf s p.key) id = some (some w, e2) →
        db.createByStructOp env (.struct s) = (.panicked, .struct s, tr2)) ∧
    (tblP.primaries.length ≠ 1 →
      (db.createByStructOp env (.ptr s)).2.1 = .ptr s) ∧
    (tblS.primaries.length ≠ 1 →
      (db.createByStructOp env (.struct s)).2.1 = .struct s) := by
  refine ⟨?_, ?_, ?_, ?_⟩
  · intro p hp hkey id tr2 ha s2 e2 hsv
    have hpc : createPrimaryColumn tblP = p := by
      unfold createPrimaryColumn
      rw [hp]
      rfl
    unfold DBModel.createByStructOp
    simp only [hmdP, hpc, ha]
    rw [if_pos hkey]
    simp only [setValueModel, hsv, Option.map]
    cases e2 <;> rfl
  · intro p hp hkey id tr2 ha w e2 hsf
    have hpc : createPrimaryColumn tblS = p := by
      unfold createPrimaryColumn
      rw [hp]
      rfl
    unfold DBModel.createByStructOp
    simp only [hmdS, hpc, ha]
    rw [if_pos hkey]
    simp only [setValueModel, hsf]
  · intro hlen
    have hpc : createPrimaryColumn tblP = default := by
      unfold createPrimaryColumn
      rw [if_neg hlen]
    unfold DBModel.createByStructOp
    simp only [hmdP, hpc]
    split
    all_goals try rfl
    all_goals rw [if_neg (by simp [default, Inhabited.default])]
  · intro hlen
    have hpc : createPrimaryColumn tblS = default := by
      unfold createPrimaryColumn
      rw [if_neg hlen]
    unfold DBModel.createByStructOp
    simp only [hmdS, hpc]
    split
    all_goals try rfl
    all_goals rw [if_neg (by simp [default, Inhabited.default])]

/-- Witness for the amended C6 at the single-serial-primary `exSerialPkZero`
insert, through both a pointer model and a by-value struct model. -/
theorem c6_id_writeback_witness :
    (∀ p : Column, exSerialPkZeroPtrTable.primaries = [p] → p.key ≠ "" →
      ∀ id tr2,
        addStmt envOk (insertBuilderOf Instance exSerialPkZeroPtrTable) p.name = (.ok id, tr2) →
      ∀ s2 e2, setValueStruct exSerialPkZero p.key id = some (s2, e2) →
        (Instance.createByStructOp envOk (.ptr exSerialPkZero)).2.1 = .ptr s2) ∧
    (∀ p : Column, exSerialPkZeroTable.primaries = [p] → p.key ≠ "" →
      ∀ id tr2,
        addStmt envOk (insertBuilderOf Instance exSerialPkZeroTable) p.name = (.ok id, tr2) →
      ∀ w e2, setValueField (fieldKindOf exSerialPkZero p.key) id = some (some w, e2) →
        Instance.createByStructOp envOk (.struct exSerialPkZero) =
          (.panicked, .struct exSerialPkZero, tr2)) ∧
    (exSerialPkZeroPtrTable.primaries.length ≠ 1 →
      (Instance.createByStructOp envOk (.ptr exSerialPkZero)).2.1 = .ptr exSerialPkZero) ∧
    (exSerialPkZeroTable.primaries.length ≠ 1 →
      (Instance.createByStructOp envOk (.struct exSerialPkZero)).2.1 =
        .struct exSerialPkZero) :=
  c6_id_writeback Instance envOk exSerialPkZero exSerialPkZeroPtrTable exSerialPkZeroTable
    (by decide) (by decide)

/-! ## C7: where the three condition sources are applied -/

/-- The single condition one iteration of the shared WHERE loop appends. -/
def appliedCond (c : Condition) : Condition :=
  if 0 < c.group.length then groupCond c.group
  else leafCond c.field c.opt c.value c.andOr

/-- The primary-key equality conditions derived from non-nil reflected
primary values (the source loops of `Get` and `Delete`). -/
def primaryConds (table : Table) : List Condition :=
  table.primaries.filterMap
    (fun p => (table.value p.name).map (fun v => leafCond p.name .Eq (some v) .and))

@[simp]
theorem qbJoin_whereConds (q : QueryBuilder) (j : JoinItem) :
    (q.qbJoin j).whereConds = q.whereConds := rfl

@[simp]
theorem qbGroupBy_whereConds (q : QueryBuilder) (fs : List String) :
    (q.qbGroupBy fs).whereConds = q.whereConds := rfl

@[simp]
theorem qbHaving_whereConds (q : QueryBuilder) (f : String) (o : WhereOpt)
    (v : Option GoVal) : (q.qbHaving f o v).whereConds = q.whereConds := rfl

@[simp]
theorem qbOrderBy_whereConds (q : QueryBuilder) (f : String) (d : OrderByDir) :
    (q.qbOrderBy f d).whereConds = q.whereConds := rfl

@[simp]
theorem qbLimit_whereConds (q : QueryBuilder) (l o : Int) :
    (q.qbLimit l o).whereConds = q.whereConds := rfl

@[simp]
theorem qbFetch_whereConds (q : QueryBuilder) (o f : Int) :
    (q.qbFetch o f).whereConds = q.whereConds := rfl

@[simp]
theorem queryInstanceFrom_whereConds (cols : List String) (nm : String) :
    (queryInstanceFrom cols nm).whereConds = [] := rfl

@[simp]
theorem whereFromModel_whereConds (tbl : Table) (q : QueryBuilder) :
    (tbl.whereFromModel q).whereConds = q.whereConds ++ tbl.whereFromModelConds := rfl

@[simp]
theorem ite_qbLimit_whereConds (c : Prop) [Decidable c] (q : QueryBuilder) (a b : Int) :
    (if c then q.qbLimit a b else q).whereConds = q.whereConds := by
  split <;> rfl

@[simp]
theorem ite_qbFetch_whereConds (c : Prop) [Decidable c] (q : QueryBuilder) (a b : Int) :
    (if c then q.qbFetch a b else q).whereConds = q.whereConds := by
  split <;> rfl

@[simp]
theorem ite_qbGroupBy_whereConds (c : Prop) [Decidable c] (q : QueryBuilder)
    (fs : List String) :
    (if c then q.qbGroupBy fs else q).whereConds = q.whereConds := by
  split <;> rfl

theorem qbApplyCond_whereConds (q : QueryBuilder) (c : Condition) :
    (q.qbApplyCond c).whereConds = q.whereConds ++ [appliedCond c] := by
  unfold QueryBuilder.qbApplyCond appliedCond
  by_cases hg : 0 < c.group.length
  · rw [if_pos hg, if_pos hg]
    rfl
  · rw [if_neg hg, if_neg hg]
    cases hc : c.andOr <;> rfl

@[simp]
theorem foldl_qbApplyCond_whereConds (l : List Condition) (q : QueryBuilder) :
    (l.foldl QueryBuilder.qbApplyCond q).whereConds =
      q.whereConds ++ l.map appliedCond := by
  induction l generalizing q with
  | nil => simp
  | cons c rest ih =>
    simp only [List.foldl_cons, List.map_cons]
    rw [ih, qbApplyCond_whereConds, List.append_assoc]
    rfl

@[simp]
theorem foldl_qbJoin_whereConds (l : List JoinItem) (q : QueryBuilder) :
    (l.foldl QueryBuilder.qbJoin q).whereConds = q.whereConds := by
  induction l generalizing q with
  | nil => rfl
  | cons a rest ih =>
    rw [List.foldl_cons, ih]
    rfl

@[simp]
theorem foldl_qbHaving_whereConds (l : List Condition) (q : QueryBuilder) :
    (l.foldl (fun q c => q.qbHaving c.field c.opt c.value) q).whereConds =
      q.whereConds := by
  induction l generalizing q with
  | nil => rfl
  | cons a rest ih =>
    rw [List.foldl_cons, ih]
    rfl

@[simp]
theorem foldl_qbOrderBy_whereConds (l : List (String × OrderByDir)) (q : QueryBuilder) :
    (l.foldl (fun q p => q.qbOrderBy p.1 p.2) q).whereConds = q.whereConds := by
  induction l generalizing q with
  | nil => rfl
  | cons a rest ih =>
    rw [List.foldl_cons, ih]
    rfl

@[simp]
theorem get_primary_fold_whereConds (table : Table) (l : List Column)
    (q : QueryBuilder) :
    (l.foldl
      (fun q p =>
        match table.value p.name with
        | some v => q.qbWhereCondition (leafCond p.name .Eq (some v) .and)
        | none => q)
      q).whereConds
      = q.whereConds ++
          l.filterMap (fun p => (table.value p.name).map
            (fun v => leafCond p.name .Eq (some v) .and)) := by
  induction l generalizing q with
  | nil => simp
  | cons p rest ih =>
    simp only [List.foldl_cons, List.filterMap_cons]
    cases hv : table.value p.name
    · simp only [Option.map_none']
      rw [ih]
    · simp only [Option.map_some']
      rw [ih]
      simp [QueryBuilder.qbWhereCondition, List.append_assoc]

theorem ubApplyCond_whereConds (b : UpdateBuilder) (c : Condition) :
    (b.ubApplyCond c).whereConds = b.whereConds ++ [appliedCond c] := by
  unfold UpdateBuilder.ubApplyCond appliedCond
  by_cases hg : 0 < c.group.length
  · rw [if_pos hg, if_pos hg]
    rfl
  · rw [if_neg hg, if_neg hg]
    cases hc : c.andOr <;> rfl

theorem dbApplyCond_whereConds (b : DeleteBuilder) (c : Condition) :
    (b.dbApplyCond c).whereConds = b.whereConds ++ [appliedCond c] := by
  unfold DeleteBuilder.dbApplyCond appliedCond
  by_cases hg : 0 < c.group.length
  · rw [if_pos hg, if_pos hg]
    rfl
  · rw [if_neg hg, if_neg hg]
    cases hc : c.andOr <;> rfl

theorem update_explicit_fold (l : List Condition) (b : UpdateBuilder) (fl : Bool) :
    ((l.foldl (fun p c => (p.1.ubApplyCond c, true)) (b, fl)).1.whereConds =
        b.whereConds ++ l.map appliedCond) ∧
      (l.foldl (fun p c => (p.1.ubApplyCond c, true)) (b, fl)).2 = (fl || !l.isEmpty) := by
  induction l generalizing b fl with
  | nil => simp
  | cons c rest ih =>
    simp only [List.foldl_cons, List.map_cons]
    refine ⟨?_, ?_⟩
    · rw [(ih _ _).1, ubApplyCond_whereConds, List.append_assoc]
      rfl
    · rw [(ih _ _).2]
      simp

theorem delete_explicit_fold (l : List Condition) (b : DeleteBuilder) (fl : Bool) :
    (l.foldl (fun p c => (p.1.dbApplyCond c, true)) (b, fl)).1.whereConds =
      b.whereConds ++ l.map appliedCond := by
  induction l generalizing b fl with
  | nil => simp
  | cons c rest ih =>
    simp only [List.foldl_cons]
    rw [ih, dbApplyCond_whereConds, List.append_assoc]
    rfl

theorem delete_primary_fold (table : Table) (l : List Column)
    (b : DeleteBuilder) (fl : Bool) :
    (l.foldl
      (fun p pc =>
        match table.value pc.name with
        | some v => (p.1.dbWhereCondition (leafCond pc.name .Eq (some v) .and), true)
        | none => p)
      (b, fl)).1.whereConds
      = b.whereConds ++
          l.filterMap (fun p => (table.value p.name).map
            (fun v => leafCond p.name .Eq (some v) .and)) := by
  induction l generalizing b fl with
  | nil => simp
  | cons p rest ih =>
    simp only [List.foldl_cons, List.filterMap_cons]
    cases hv : table.value p.name
    · simp only [Option.map_none']
      rw [ih]
    · simp only [Option.map_some']
      rw [ih]
      simp [DeleteBuilder.dbWhereCondition, List.append_assoc]

theorem update_fallback_fold (table : Table) (l : List Column)
    (b : UpdateBuilder) (fl : Bool) :
    (l.foldl
      (fun p c =>
        if c.primary then (p.1.ubWhere c.name .Eq (table.value c.name), true)
        else p)
      (b, fl)).1.whereConds
      = b.whereConds ++
          (l.filter (fun c => c.primary)).map
            (fun col => leafCond col.name .Eq (table.value col.name) .and) := by
  induction l generalizing b fl with
  | nil => simp
  | cons c rest ih =>
    simp only [List.foldl_cons, List.filter_cons]
    by_cases hp : c.primary = true
    · simp only [hp, if_true, List.map_cons]
      rw [ih]
      simp [UpdateBuilder.ubWhere, List.append_assoc]
    · simp only [hp, Bool.false_eq_true, if_false]
      rw [ih]

theorem buildUpdateWhere_whereConds (db : DBModel) (tbl : Table) :
    (buildUpdateWhere db tbl).1.whereConds =
      if db.whereConds.isEmpty then
        (tbl.columns.filter (fun c => c.primary)).map
          (fun col => leafCond col.name .Eq (tbl.value col.name) .and)
      else db.whereConds.map appliedCond := by
  unfold buildUpdateWhere updateExplicitWhere
  by_cases he : db.whereConds.isEmpty
  · rw [if_pos he]
    have h2 := (update_explicit_fold db.whereConds
      ({ table := tbl.name, whereConds := [], sets := [] } : UpdateBuilder) false).2
    rw [he] at h2
    simp only [Bool.not_true, Bool.or_false] at h2
    rw [if_pos (by rw [h2]; rfl)]
    rw [update_fallback_fold]
    rw [(update_explicit_fold db.whereConds _ false).1]
    have : db.whereConds = [] := List.isEmpty_iff.mp he
    simp [this]
  · rw [if_neg he]
    have h2 := (update_explicit_fold db.whereConds
      ({ table := tbl.name, whereConds := [], sets := [] } : UpdateBuilder) false).2
    have he2 : db.whereConds.isEmpty = false := by
      simpa using he
    rw [he2] at h2
    simp only [Bool.not_false, Bool.or_true] at h2
    rw [if_neg (by rw [h2]; simp)]
    rw [(update_explicit_fold db.whereConds _ false).1]
    rfl

theorem buildDeleteWhere_whereConds (db : DBModel) (tbl : Table) :
    (buildDeleteWhere db tbl).1.whereConds =
      primaryConds tbl ++ db.whereConds.map appliedCond := by
  unfold buildDeleteWhere deletePrimaryWhere primaryConds
  rcases hd : tbl.primaries.foldl
      (fun p pc =>
        match tbl.value pc.name with
        | some v => (p.1.dbWhereCondition (leafCond pc.name .Eq (some v) .and), true)
        | none => p)
      (({ table := tbl.name, whereConds := [] } : DeleteBuilder), false)
    with ⟨b1, fl1⟩
  have h1 := delete_primary_fold tbl tbl.primaries
    ({ table := tbl.name, whereConds := [] } : DeleteBuilder) false
  rw [hd] at h1
  rw [hd, delete_explicit_fold, h1]
  rfl

/-- C7: `Get` merges primary-key conditions, the accumulated conditions and
the struct-derived `whereFromModel` conditions in that order; `Find` merges
accumulated and struct-derived conditions; `Update` and `Delete` build their
WHERE from the accumulated conditions and primary-column equalities only —
no struct-derived condition for a non-primary column ever appears there. -/
theorem c7_condition_sources (db : DBModel) (tbl ftbl : Table) (g : GetOne)
    (e1 e2 : Nat) (q : QueryBuilder)
    (hq : buildGetQuery db tbl g e1 e2 = some q) :
    q.whereConds =
      primaryConds tbl ++ db.whereConds.map appliedCond ++ tbl.whereFromModelConds ∧
    (buildFindQuery db ftbl).whereConds =
      db.whereConds.map appliedCond ++ ftbl.whereFromModelConds ∧
    (buildUpdateWhere db tbl).1.whereConds =
      (if db.whereConds.isEmpty then
        (tbl.columns.filter (fun c => c.primary)).map
          (fun col => leafCond col.name .Eq (tbl.value col.name) .and)
      else db.whereConds.map appliedCond) ∧
    (buildDeleteWhere db tbl).1.whereConds =
      primaryConds tbl ++ db.whereConds.map appliedCond := by
  refine ⟨?_, ?_, buildUpdateWhere_whereConds db tbl, buildDeleteWhere_whereConds db tbl⟩
  · unfold buildGetQuery at hq
    simp only [] at hq
    split at hq
    · exact absurd hq (by simp)
    split at hq
    · split at hq
      · exact absurd hq (by simp)
      · injection hq with h2
        subst h2
        simp [primaryConds, List.append_assoc]
    · injection hq with h2
      subst h2
      simp [primaryConds, List.append_assoc]
    · injection hq with h2
      subst h2
      simp [primaryConds, List.append_assoc]
  · unfold buildFindQuery
    simp [List.append_assoc]

/-- Witness for C7 at the fixture builder and reflected tables. -/
theorem c7_condition_sources_witness :
    ∃ q, buildGetQuery (Instance.Where "age" .Eq (some (.vInt .int64 42)))
        exSerialPkZeroTable .GetFirst 0 0 = some q ∧
      (q.whereConds =
        primaryConds exSerialPkZeroTable ++
          (Instance.Where "age" .Eq (some (.vInt .int64 42))).whereConds.map appliedCond ++
          exSerialPkZeroTable.whereFromModelConds ∧
      (buildFindQuery (Instance.Where "age" .Eq (some (.vInt .int64 42))) exNoPkTable).whereConds =
        (Instance.Where "age" .Eq (some (.vInt .int64 42))).whereConds.map appliedCond ++
          exNoPkTable.whereFromModelConds ∧
      (buildUpdateWhere (Instance.Where "age" .Eq (some (.vInt .int64 42))) exSerialPkZeroTable).1.whereConds =
        (if (Instance.Where "age" .Eq (some (.vInt .int64 42))).whereConds.isEmpty then
          (exSerialPkZeroTable.columns.filter (fun c => c.primary)).map
            (fun col => leafCond col.name .Eq (exSerialPkZeroTable.value col.name) .and)
        else (Instance.Where "age" .Eq (some (.vInt .int64 42))).whereConds.map appliedCond) ∧
      (buildDeleteWhere (Instance.Where "age" .Eq (some (.vInt .int64 42))) exSerialPkZeroTable).1.whereConds =
        primaryConds exSerialPkZeroTable ++
          (Instance.Where "age" .Eq (some (.vInt .int64 42))).whereConds.map appliedCond) :=
  ⟨_, rfl, c7_condition_sources (Instance.Where "age" .Eq (some (.vInt .int64 42)))
    exSerialPkZeroTable exNoPkTable .GetFirst 0 0 _ rfl⟩

/-! ## C9: the TakeOne random order-by column -/

@[simp]
theorem qbWhere_orderBys (q : QueryBuilder) (f : String) (o : WhereOpt)
    (v : Option GoVal) : (q.qbWhere f o v).orderBys = q.orderBys := rfl

@[simp]
theorem qbWhereOr_orderBys (q : QueryBuilder) (f : String) (o : WhereOpt)
    (v : Option GoVal) : (q.qbWhereOr f o v).orderBys = q.orderBys := rfl

@[simp]
theorem qbWhereCondition_orderBys (q : QueryBuilder) (c : Condition) :
    (q.qbWhereCondition c).orderBys = q.orderBys := rfl

@[simp]
theorem qbWhereGroup_orderBys (q : QueryBuilder) (gs : List Condition) :
    (q.qbWhereGroup gs).orderBys = q.orderBys := rfl

@[simp]
theorem qbJoin_orderBys (q : QueryBuilder) (j : JoinItem) :
    (q.qbJoin j).orderBys = q.orderBys := rfl

@[simp]
theorem qbGroupBy_orderBys (q : QueryBuilder) (fs : List String) :
    (q.qbGroupBy fs).orderBys = q.orderBys := rfl

@[simp]
theorem qbHaving_orderBys (q : QueryBuilder) (f : String) (o : WhereOpt)
    (v : Option GoVal) : (q.qbHaving f o v).orderBys = q.orderBys := rfl

@[simp]
theorem qbLimit_orderBys (q : QueryBuilder) (l o : Int) :
    (q.qbLimit l o).orderBys = q.orderBys := rfl

@[simp]
theorem qbFetch_orderBys (q : QueryBuilder) (o f : Int) :
    (q.qbFetch o f).orderBys = q.orderBys := rfl

@[simp]
theorem queryInstanceFrom_orderBys (cols : List String) (nm : String) :
    (queryInstanceFrom cols nm).orderBys = [] := rfl

@[simp]
theorem whereFromModel_orderBys (tbl : Table) (q : QueryBuilder) :
    (tbl.whereFromModel q).orderBys = q.orderBys := rfl

@[simp]
theorem qbOrderBy_orderBys (q : QueryBuilder) (f : String) (d : OrderByDir) :
    (q.qbOrderBy f d).orderBys = q.orderBys ++ [(f, d)] := rfl

@[simp]
theorem qbApplyCond_orderBys (q : QueryBuilder) (c : Condition) :
    (q.qbApplyCond c).orderBys = q.orderBys := by
  unfold QueryBuilder.qbApplyCond
  split
  · rfl
  · cases c.andOr <;> rfl

@[simp]
theorem ite_qbLimit_orderBys (c : Prop) [Decidable c] (q : QueryBuilder) (a b : Int) :
    (if c then q.qbLimit a b else q).orderBys = q.orderBys := by
  split <;> rfl

@[simp]
theorem ite_qbFetch_orderBys (c : Prop) [Decidable c] (q : QueryBuilder) (a b : Int) :
    (if c then q.qbFetch a b else q).orderBys = q.orderBys := by
  split <;> rfl

@[simp]
theorem ite_qbGroupBy_orderBys (c : Prop) [Decidable c] (q : QueryBuilder)
    (fs : List String) :
    (if c then q.qbGroupBy fs else q).orderBys = q.orderBys := by
  split <;> rfl

@[simp]
theorem foldl_qbApplyCond_orderBys (l : List Condition) (q : QueryBuilder) :
    (l.foldl QueryBuilder.qbApplyCond q).orderBys = q.orderBys := by
  induction l generalizing q with
  | nil => rfl
  | cons c rest ih => rw [List.foldl_cons, ih, qbApplyCond_orderBys]

@[simp]
theorem foldl_qbJoin_orderBys (l : List JoinItem) (q : QueryBuilder) :
    (l.foldl QueryBuilder.qbJoin q).orderBys = q.orderBys := by
  induction l generalizing q with
  | nil => rfl
  | cons a rest ih =>
    rw [List.foldl_cons, ih]
    rfl

@[simp]
theorem foldl_qbHaving_orderBys (l : List Condition) (q : QueryBuilder) :
    (l.foldl (fun q c => q.qbHaving c.field c.opt c.value) q).orderBys = q.orderBys := by
  induction l generalizing q with
  | nil => rfl
  | cons a rest ih =>
    rw [List.foldl_cons, ih]
    rfl

@[simp]
theorem get_primary_fold_orderBys (table : Table) (l : List Column)
    (q : QueryBuilder) :
    (l.foldl
      (fun q p =>
        match table.value p.name with
        | some v => q.qbWhereCondition (leafCond p.name .Eq (some v) .and)
        | none => q)
      q).orderBys = q.orderBys := by
  induction l generalizing q with
  | nil => rfl
  | cons p rest ih =>
    rw [List.foldl_cons]
    cases hv : table.value p.name
    · rw [ih]
    · rw [ih]
      rfl

theorem buildGetQuery_takeone_one_column (db : DBModel) (tbl : Table)
    (e1 e2 : Nat) (h1 : tbl.columns.length = 1) :
    buildGetQuery db tbl .TakeOne e1 e2 = none := by
  unfold buildGetQuery
  simp only []
  have hr : goRandInt e1 ((tbl.columns.length : Int) - 1) = none := by
    unfold goRandInt
    rw [if_pos (by rw [h1]; norm_num)]
  split
  · rfl
  · rw [hr]

theorem buildGetQuery_takeone_many (db : DBModel) (tbl : Table) (e1 e2 : Nat)
    (h2 : 2 ≤ tbl.columns.length) :
    ∃ q, buildGetQuery db tbl .TakeOne e1 e2 = some q ∧
      q.orderBys =
        [((tbl.columns.getD ((e1 : Int) % ((tbl.columns.length : Int) - 1)).toNat
            default).name,
          if ((e2 : Int) % 10) % 2 = 1 then OrderByDir.Asc else OrderByDir.Desc)] := by
  have hlen : ¬((tbl.columns.length : Int) - 1 ≤ 0) := by
    push_cast
    omega
  have hr : goRandInt e1 ((tbl.columns.length : Int) - 1) =
      some ((e1 : Int) % ((tbl.columns.length : Int) - 1)) := by
    unfold goRandInt
    rw [if_neg hlen]
  have hr2 : (goRandInt e2 10).getD 0 = (e2 : Int) % 10 := by
    unfold goRandInt
    rw [if_neg (by norm_num)]
    rfl
  unfold buildGetQuery
  simp only []
  split
  case _ hobf =>
    exfalso
    rcases hc : tbl.columns with _ | ⟨c, cs⟩
    · rw [hc] at h2; simp at h2
    · rcases hp : tbl.primaries with _ | ⟨p, ps⟩ <;> simp [hp, hc] at hobf
  case _ obf hobf =>
    simp only [hr, hr2]
    refine ⟨_, rfl, ?_⟩
    simp

/-! ## C5: Find's COUNT query strips and restores pagination -/

/-- C9: with the `TakeOne` strategy the random order-by column index is
drawn uniformly from `[0, n-2]` for a table of `n` mapped columns — the last
declared column can never be the ordering column — and a single-column model
panics because `crypto/rand.Int` is called with a zero upper bound. -/
theorem c9_takeone_random_column (db : DBModel) (env : DbEnv) (m : GoModel)
    (tbl : Table) (e1 e2 : Nat)
    (hraw : db.rawSqlStr = "")
    (hmd : ModelData m = .ok tbl) :
    (tbl.columns.length = 1 →
      db.getOp env m .TakeOne e1 e2 = (.panicked, db, [])) ∧
    (2 ≤ tbl.columns.length →
      ∃ q, buildGetQuery db tbl .TakeOne e1 e2 = some q ∧
        ∃ idx : Nat, idx = e1 % (tbl.columns.length - 1) ∧
          idx < tbl.columns.length - 1 ∧
          q.orderBys = [((tbl.columns.getD idx default).name,
            if ((e2 : Int) % 10) % 2 = 1 then OrderByDir.Asc else OrderByDir.Desc)]) := by
  constructor
  · intro h1
    have hb := buildGetQuery_takeone_one_column db tbl e1 e2 h1
    unfold DBModel.getOp
    simp only [hraw, ne_eq, not_true_eq_false, if_false, reduceCtorEq]
    cases m <;> simp only [ModelData, reduceCtorEq] at hmd <;> try exact absurd hmd (by simp)
    case struct s =>
      simp only [ModelData, hmd, hb]
    case ptr s =>
      simp only [ModelData, hmd, hb]
  · intro h2
    obtain ⟨q, hq, hord⟩ := buildGetQuery_takeone_many db tbl e1 e2 h2
    refine ⟨q, hq, ((e1 : Int) % ((tbl.columns.length : Int) - 1)).toNat, ?_, ?_, hord⟩
    · have hcast : ((tbl.columns.length : Int) - 1) = ((tbl.columns.length - 1 : Nat) : Int) := by
        push_cast
        omega
      rw [hcast, ← Int.natCast_mod]
      exact Int.toNat_ofNat _
    · have hpos : 0 < tbl.columns.length - 1 := by omega
      have hcast : ((tbl.columns.length : Int) - 1) = ((tbl.columns.length - 1 : Nat) : Int) := by
        push_cast
        omega
      rw [hcast, ← Int.natCast_mod, Int.toNat_ofNat]
      exact Nat.mod_lt _ hpos

/-- Witness for C9: the two-column `exSerialPkZero` table with entropy 5/4,
and a one-column table for the panic half. -/
theorem c9_takeone_random_column_witness :
    (exSerialPkZeroTable.columns.length = 1 →
      Instance.getOp envOk (.struct exSerialPkZero) .TakeOne 5 4 = (.panicked, Instance, [])) ∧
    (2 ≤ exSerialPkZeroTable.columns.length →
      ∃ q, buildGetQuery Instance exSerialPkZeroTable .TakeOne 5 4 = some q ∧
        ∃ idx : Nat, idx = 5 % (exSerialPkZeroTable.columns.length - 1) ∧
          idx < exSerialPkZeroTable.columns.length - 1 ∧
          q.orderBys = [((exSerialPkZeroTable.columns.getD idx default).name,
            if ((4 : Int) % 10) % 2 = 1 then OrderByDir.Asc else OrderByDir.Desc)]) :=
  c9_takeone_random_column Instance envOk (.struct exSerialPkZero)
    exSerialPkZeroTable 5 4 rfl (by decide)

end Gdb
